import Mathlib

/-!
Shallow embedding of the LiftLogic elevator dispatch simulator.

Conventions of the embedding:
* Python `int` is modelled as `ℤ`, Python `float` as `ℚ` (exact rational
  arithmetic; the simulator only adds, subtracts, multiplies and divides
  floats, except for `math.sqrt` in the travel-time estimator, which is
  kept symbolic, see `EstTime`).
* Python lists are Lean lists; `list.sort`/`sorted` (Timsort, stable,
  ascending by key) is modelled by a stable insertion sort `pySorted`.
* Python dicts built by `setdefault`/append are association lists in
  insertion order (`dictSetdefault`, `dictSet`, `dictAppend`).
* Mutation is modelled by explicit state passing: a method that mutates
  `self`, the building and the metrics tracker returns the new values.
* Exceptions are modelled with `Except` / an explicit error component.
-/

namespace LiftLogic

/-! ### Python primitives -/

/-- Python `round(x)` for a float: round half to even (banker's rounding). -/
def pyRound (q : ℚ) : ℤ :=
  let f := ⌊q⌋
  let frac := q - f
  if frac < 1/2 then f
  else if 1/2 < frac then f + 1
  else if f % 2 = 0 then f else f + 1

/-- Python `int(x)` on a float/rational: truncation toward zero. -/
def ratTrunc (q : ℚ) : ℤ := if 0 ≤ q then ⌊q⌋ else -⌊-q⌋

/-- Python `str.lower()` (ASCII names only in this code base). -/
def pyLower (s : String) : String := ⟨s.data.map Char.toLower⟩

/-- Stable insertion of `x` into `l`: `x` is placed before the first
element `y` with `le x y`, hence before elements that compare equal. -/
def insertStable {α : Type} (le : α → α → Bool) (x : α) : List α → List α
  | [] => [x]
  | y :: ys => if le x y then x :: y :: ys else y :: insertStable le x ys

/-- Python `sorted(l, key=...)` / `l.sort(key=...)`: a stable ascending
sort.  For a total transitive comparator this agrees with any stable
sort, in particular with Timsort. -/
def pySorted {α : Type} (le : α → α → Bool) : List α → List α
  | [] => []
  | x :: xs => insertStable le x (pySorted le xs)

/-- Python `list.remove(a)`: drop the first element equal to `a`. -/
def removeFirst {α : Type} [DecidableEq α] : List α → α → List α
  | [], _ => []
  | x :: xs, a => if x = a then xs else x :: removeFirst xs a

/-- Replace the first element satisfying `pred` by its image under `f`
(models mutating the object found by a linear search). -/
def mutateFirst {α : Type} (pred : α → Bool) (f : α → α) : List α → List α
  | [] => []
  | x :: xs => if pred x then f x :: xs else x :: mutateFirst pred f xs

/-- Python `d.setdefault(k, [])`: register `k` with `[]` if absent. -/
def dictSetdefault {α : Type} (m : List (ℤ × List α)) (k : ℤ) : List (ℤ × List α) :=
  if (m.lookup k).isSome then m else m ++ [(k, [])]

/-- Value of key `k` (empty list when absent). -/
def dictGet {α : Type} (m : List (ℤ × List α)) (k : ℤ) : List α :=
  (m.lookup k).getD []

/-- Overwrite the value stored at the first occurrence of key `k`. -/
def dictSet {α : Type} (m : List (ℤ × List α)) (k : ℤ) (v : List α) : List (ℤ × List α) :=
  mutateFirst (fun p => p.1 == k) (fun p => (p.1, v)) m

/-- Python `d.setdefault(k, []).append(v)`: append `v` to the list at
the first occurrence of `k`, registering `k` at the end if absent.
(Keys are unique in every dict this development builds, so the first
occurrence is the only one.) -/
def dictAppend {α : Type} : List (ℤ × List α) → ℤ → α → List (ℤ × List α)
  | [], k, v => [(k, [v])]
  | p :: m, k, v => if p.1 = k then (p.1, p.2 ++ [v]) :: m else p :: dictAppend m k v

/-- Python list indexing `l[i]` with negative-index support; `none`
models an `IndexError`. -/
def listIndex {α : Type} (l : List α) (i : ℤ) : Option α :=
  if 0 ≤ i then l.get? i.toNat
  else if 0 ≤ (l.length : ℤ) + i then l.get? ((l.length : ℤ) + i).toNat
  else none

/-! ### Symbolic travel-time values

`estimate_travel_time` returns a float that is either a rational number,
`2·sqrt(r)` for a rational `r ≥ 0`, or `float("inf")`.  We represent such
values exactly: `val a b c` stands for `a + b·√c` (with `b, c ≥ 0` for
every value the estimator produces) and `inf` for positive infinity. -/

inductive EstTime : Type
  | val (base coeff rad : ℚ)
  | inf
deriving DecidableEq

namespace EstTime

/-- Real value of a finite estimate (`inf` is handled structurally). -/
noncomputable def toReal : EstTime → ℝ
  | val a b c => (a : ℝ) + (b : ℝ) * Real.sqrt (c : ℝ)
  | inf => 0

/-- Float `≤` on estimate values, decided by rational arithmetic.
For `a₁ + √A ≤ a₂ + √B` (with `A = b₁²·c₁`, `B = b₂²·c₂` both
nonnegative) the comparison is resolved by squaring twice. -/
def le : EstTime → EstTime → Bool
  | _, inf => true
  | inf, val _ _ _ => false
  | val a1 b1 c1, val a2 b2 c2 =>
    let A := b1 ^ 2 * c1
    let B := b2 ^ 2 * c2
    let Q := a2 - a1
    if 0 ≤ Q then
      let C := A - B - Q ^ 2
      if C ≤ 0 then true else decide (C ^ 2 ≤ 4 * Q ^ 2 * B)
    else
      let D := B - A - Q ^ 2
      if D < 0 then false else decide (4 * Q ^ 2 * A ≤ D ^ 2)

/-- Strict float `<` derived from `le`. -/
def lt (x y : EstTime) : Bool := x.le y && !(y.le x)

/-- Float `==` derived from `le`. -/
def equiv (x y : EstTime) : Bool := x.le y && y.le x

/-- Add a rational (e.g. a door-dwell tick count) to an estimate;
`inf + q = inf` as for floats. -/
def addQ : EstTime → ℚ → EstTime
  | val a b c, q => val (a + q) b c
  | inf, _ => inf

end EstTime

/-! ### `scheduler/interface.py` -/

/-- Lightweight view of an elevator for scheduling decisions. -/
structure ElevatorSnapshot where
  elevator_id : ℤ
  position : ℚ
  direction : ℤ
  targets : List ℤ
  load : ℤ
  capacity : ℤ
  cruise_speed : ℚ
  acceleration : ℚ
  door_dwell : ℤ
deriving DecidableEq

/-- Derived `available_capacity = max(0, capacity - load)`. -/
def ElevatorSnapshot.available_capacity (e : ElevatorSnapshot) : ℤ :=
  max 0 (e.capacity - e.load)

/-- Representation of a pending hall call for schedulers. -/
structure PendingRequest where
  origin : ℤ
  direction : ℤ
  requested_at : ℤ
  passenger_count : ℤ
  destinations : List ℤ
deriving DecidableEq

/-- Scheduler result: mapping elevator_id → ordered list of floor targets,
as an insertion-ordered association list (a Python dict). -/
abbrev Assignments := List (ℤ × List ℤ)

/-! ### `scheduler/utils.py` -/

/-- Estimate time to reach a floor using cruise speed and acceleration
(trapezoidal velocity profile; translation of `estimate_travel_time`). -/
def estimate_travel_time (elevator : ElevatorSnapshot) (floor : ℤ) : EstTime :=
  let distance := |elevator.position - (floor : ℚ)|
  if distance = 0 then .val 0 0 0
  else if elevator.acceleration ≤ 0 ∨ elevator.cruise_speed ≤ 0 then
    if 0 < elevator.cruise_speed then .val (distance / elevator.cruise_speed) 0 0
    else .inf
  else
    let time_to_cruise := elevator.cruise_speed / elevator.acceleration
    let distance_to_cruise := 1/2 * elevator.acceleration * time_to_cruise ^ 2
    if distance ≤ 2 * distance_to_cruise then
      .val 0 2 (distance / elevator.acceleration)
    else
      let cruise_distance := distance - 2 * distance_to_cruise
      let cruise_time := cruise_distance / elevator.cruise_speed
      .val (2 * time_to_cruise + cruise_time) 0 0

/-- Sort requests to mirror SCAN behavior for a given direction
(`sorted` with key `req.origin`, or `-req.origin` for downward travel). -/
def sort_requests_in_direction (requests : List PendingRequest) (direction : ℤ) : List PendingRequest :=
  if 0 ≤ direction then pySorted (fun a b => decide (a.origin ≤ b.origin)) requests
  else pySorted (fun a b => decide (-a.origin ≤ -b.origin)) requests

/-! ### `scheduler/fcfs.py` -/

namespace FCFS

/-- Sort key of `_choose_elevator`: (estimated travel time to the origin,
target-list length, |elevator direction − request direction|). -/
def chooseKey (e : ElevatorSnapshot) (request : PendingRequest) : EstTime × ℕ × ℤ :=
  (estimate_travel_time e request.origin, e.targets.length, |e.direction - request.direction|)

/-- Lexicographic float/int tuple comparison for `chooseKey`. -/
def chooseKeyLE (k1 k2 : EstTime × ℕ × ℤ) : Bool :=
  k1.1.lt k2.1 ||
    (k1.1.equiv k2.1 &&
      (decide (k1.2.1 < k2.2.1) ||
        (decide (k1.2.1 = k2.2.1) && decide (k1.2.2 ≤ k2.2.2))))

/-- Translation of `FirstComeFirstServedScheduler._choose_elevator`. -/
def _choose_elevator (elevators : List ElevatorSnapshot) (request : PendingRequest) :
    Option ElevatorSnapshot :=
  let available := elevators.filter (fun e => decide (request.passenger_count ≤ e.available_capacity))
  let available := if available.isEmpty then elevators.filter (fun e => decide (0 < e.available_capacity)) else available
  if available.isEmpty then none
  else (pySorted (fun a b => chooseKeyLE (chooseKey a request) (chooseKey b request)) available).head?

/-- Translation of `FirstComeFirstServedScheduler._update_snapshot`:
build a fresh snapshot for the chosen elevator whose target list gains
the request origin (if new); all other fields are copied verbatim. -/
def _update_snapshot (elevators : List ElevatorSnapshot) (chosen : ElevatorSnapshot)
    (request : PendingRequest) : List ElevatorSnapshot :=
  elevators.map fun elevator =>
    if elevator.elevator_id = chosen.elevator_id then
      let new_targets :=
        if request.origin ∈ elevator.targets then elevator.targets
        else elevator.targets ++ [request.origin]
      { elevator_id := elevator.elevator_id
        position := elevator.position
        direction := elevator.direction
        targets := new_targets
        load := elevator.load
        capacity := elevator.capacity
        cruise_speed := elevator.cruise_speed
        acceleration := elevator.acceleration
        door_dwell := elevator.door_dwell }
    else elevator

/-- Loop body of `select_calls`: process requests in order, threading the
simulated elevator snapshots through `_update_snapshot`. -/
def selectLoop : List PendingRequest → List ElevatorSnapshot → Assignments → Assignments
  | [], _, assignments => assignments
  | request :: rest, elevators, assignments =>
    match _choose_elevator elevators request with
    | none => selectLoop rest elevators assignments
    | some candidate =>
      selectLoop rest (_update_snapshot elevators candidate request)
        (dictAppend assignments candidate.elevator_id request.origin)

/-- Translation of `FirstComeFirstServedScheduler.select_calls`. -/
def select_calls (elevator_state : List ElevatorSnapshot) (pending_requests : List PendingRequest) :
    Assignments :=
  let open_requests := pySorted (fun a b => decide (a.requested_at ≤ b.requested_at)) pending_requests
  selectLoop open_requests elevator_state []

end FCFS

/-! ### `scheduler/scan.py` -/

namespace Scan

/-- Translation of `ScanScheduler._is_in_path`. -/
def _is_in_path (elevator : ElevatorSnapshot) (request : PendingRequest) : Bool :=
  if elevator.direction = 0 then true
  else
    decide (0 < elevator.direction ∧ elevator.position ≤ (request.origin : ℚ)) ||
      decide (elevator.direction < 0 ∧ (request.origin : ℚ) ≤ elevator.position)

/-- Sort key of `_closest_elevator`: (estimated travel time + door dwell,
|elevator direction − request direction|). -/
def closestKey (e : ElevatorSnapshot) (request : PendingRequest) : EstTime × ℤ :=
  ((estimate_travel_time e request.origin).addQ (e.door_dwell : ℚ), |e.direction - request.direction|)

/-- Lexicographic float/int tuple comparison for `closestKey`. -/
def closestKeyLE (k1 k2 : EstTime × ℤ) : Bool :=
  k1.1.lt k2.1 || (k1.1.equiv k2.1 && decide (k1.2 ≤ k2.2))

/-- Translation of `ScanScheduler._closest_elevator`. -/
def _closest_elevator (elevators : List ElevatorSnapshot) (request : PendingRequest) :
    Option ElevatorSnapshot :=
  let feasible := elevators.filter (fun e => decide (0 < e.available_capacity))
  if feasible.isEmpty then none
  else (pySorted (fun a b => closestKeyLE (closestKey a request) (closestKey b request)) feasible).head?

/-- Inner loop over `sorted_path`: the capacity guard `available_capacity
≤ 0 → break` is re-checked before every assignment, exactly as in the
source (the snapshot value never changes within the loop). -/
def assignLoop (elevator : ElevatorSnapshot) :
    List PendingRequest → Assignments → List PendingRequest → Assignments × List PendingRequest
  | [], assignments, requests => (assignments, requests)
  | request :: rest, assignments, requests =>
    if elevator.available_capacity ≤ 0 then (assignments, requests)
    else assignLoop elevator rest (dictAppend assignments elevator.elevator_id request.origin)
      (removeFirst requests request)

/-- First phase of `select_calls`: per elevator, in building order,
assign the in-path requests. -/
def sweep : List ElevatorSnapshot → Assignments → List PendingRequest →
    Assignments × List PendingRequest
  | [], assignments, requests => (assignments, requests)
  | elevator :: more, assignments, requests =>
    let direction := if elevator.direction = 0 then 1 else elevator.direction
    let in_path := requests.filter (fun req => _is_in_path elevator req)
    let sorted_path := sort_requests_in_direction in_path direction
    let step := assignLoop elevator sorted_path assignments requests
    sweep more step.1 step.2

/-- Second phase of `select_calls`: each remaining request goes to the
closest feasible elevator (no snapshot updates between requests). -/
def fallback (elevators : List ElevatorSnapshot) :
    List PendingRequest → Assignments → Assignments
  | [], assignments => assignments
  | request :: rest, assignments =>
    match _closest_elevator elevators request with
    | none => fallback elevators rest assignments
    | some candidate =>
      fallback elevators rest (dictAppend assignments candidate.elevator_id request.origin)

/-- Translation of `ScanScheduler.select_calls`. -/
def select_calls (elevator_state : List ElevatorSnapshot) (pending_requests : List PendingRequest) :
    Assignments :=
  let step := sweep elevator_state [] pending_requests
  fallback elevator_state step.2 step.1

end Scan

/-! ### `scheduler/destination_dispatch.py` -/

namespace DD

/-- Translation of `DestinationDispatchScheduler._destination_bucket`
(`int(sum(d)/len(d)) // cluster_size`, bucket 0 for no destinations). -/
def _destination_bucket (cluster_size : ℤ) (destinations : List ℤ) : ℤ :=
  if destinations.isEmpty then 0
  else
    let focus := ratTrunc ((destinations.sum : ℚ) / (destinations.length : ℚ))
    focus.fdiv cluster_size

/-- Translation of `DestinationDispatchScheduler._cluster_requests`:
group requests into buckets, in first-seen bucket order. -/
def _cluster_requests (cluster_size : ℤ) (pending_requests : List PendingRequest) :
    List (ℤ × List PendingRequest) :=
  pending_requests.foldl
    (fun buckets request =>
      dictAppend buckets (_destination_bucket cluster_size request.destinations) request)
    []

/-- Loop of `_cluster_destinations` over the sorted distinct destinations,
carrying the runs built so far and the current run. -/
def clusterLoop (cluster_size : ℤ) : List ℤ → List ℤ → List ℤ → List ℤ
  | [], clustered, current_cluster =>
    (match current_cluster with
     | [] => clustered
     | _ :: _ =>
       clustered ++ [ratTrunc ((current_cluster.sum : ℚ) / (current_cluster.length : ℚ))])
  | destination :: rest, clustered, current_cluster =>
    match current_cluster with
    | [] => clusterLoop cluster_size rest clustered [destination]
    | c0 :: _ =>
      if destination - c0 < cluster_size then
        clusterLoop cluster_size rest clustered (current_cluster ++ [destination])
      else
        clusterLoop cluster_size rest
          (clustered ++ [ratTrunc ((current_cluster.sum : ℚ) / (current_cluster.length : ℚ))])
          [destination]

/-- Translation of `DestinationDispatchScheduler._cluster_destinations`:
`sorted(set(destinations))`, grouped into runs whose span is below
`cluster_size`, each run contributing its truncated average. -/
def _cluster_destinations (cluster_size : ℤ) (destinations : List ℤ) : List ℤ :=
  if destinations.isEmpty then []
  else
    let dests := pySorted (fun a b => decide (a ≤ b)) destinations.eraseDups
    clusterLoop cluster_size dests [] []

/-- Sort key of `_best_elevator`: (estimated travel time to the cluster
origin centroid + door dwell, target-list length). -/
def bestKey (e : ElevatorSnapshot) (centroid_floor : ℤ) : EstTime × ℕ :=
  ((estimate_travel_time e centroid_floor).addQ (e.door_dwell : ℚ), e.targets.length)

/-- Lexicographic float/int tuple comparison for `bestKey`. -/
def bestKeyLE (k1 k2 : EstTime × ℕ) : Bool :=
  k1.1.lt k2.1 || (k1.1.equiv k2.1 && decide (k1.2 ≤ k2.2))

/-- Translation of `DestinationDispatchScheduler._best_elevator`. -/
def _best_elevator (elevators : List ElevatorSnapshot) (requests : List PendingRequest) :
    Option ElevatorSnapshot :=
  if requests.isEmpty then none
  else
    let required_capacity := (requests.map (fun r => r.passenger_count)).sum
    let feasible := elevators.filter (fun e => decide (required_capacity ≤ e.available_capacity))
    let feasible := if feasible.isEmpty then elevators.filter (fun e => decide (0 < e.available_capacity)) else feasible
    if feasible.isEmpty then none
    else
      let centroid_floor := ratTrunc (((requests.map (fun r => r.origin)).sum : ℚ) / (requests.length : ℚ))
      (pySorted (fun a b => bestKeyLE (bestKey a centroid_floor) (bestKey b centroid_floor)) feasible).head?

/-- Target accumulation for one cluster assigned to `chosen`: each
request contributes its origin and its clustered destination stops, with
membership checked against the growing list. -/
def clusterTargets (cluster_size : ℤ) (grouped_requests : List PendingRequest)
    (targets : List ℤ) : List ℤ :=
  grouped_requests.foldl
    (fun targets request =>
      let targets := if request.origin ∈ targets then targets else targets ++ [request.origin]
      (_cluster_destinations cluster_size request.destinations).foldl
        (fun targets destination =>
          if destination ∈ targets then targets else targets ++ [destination])
        targets)
    targets

/-- Loop of `select_calls` over the clusters. -/
def selectLoop (cluster_size : ℤ) (elevators : List ElevatorSnapshot) :
    List (ℤ × List PendingRequest) → Assignments → Assignments
  | [], assignments => assignments
  | cluster :: rest, assignments =>
    match _best_elevator elevators cluster.2 with
    | none => selectLoop cluster_size elevators rest assignments
    | some chosen =>
      let assignments := dictSetdefault assignments chosen.elevator_id
      let targets := dictGet assignments chosen.elevator_id
      let targets := clusterTargets cluster_size cluster.2 targets
      selectLoop cluster_size elevators rest (dictSet assignments chosen.elevator_id targets)

/-- Translation of `DestinationDispatchScheduler.select_calls`. -/
def select_calls (cluster_size : ℤ) (elevator_state : List ElevatorSnapshot)
    (pending_requests : List PendingRequest) : Assignments :=
  selectLoop cluster_size elevator_state (_cluster_requests cluster_size pending_requests) []

end DD

/-! ### `scheduler/__init__.py` -/

/-- The three concrete strategies behind the `Scheduler` protocol.
`destination_dispatch` stores its `cluster_size` tunable
(`max(1, cluster_size)` is applied by the constructor, default 3). -/
inductive SchedulerImpl : Type
  | fcfs
  | scan
  | destination_dispatch (cluster_size : ℤ)
deriving DecidableEq

/-- Dispatch `select_calls` through the strategy object. -/
def SchedulerImpl.select_calls : SchedulerImpl → List ElevatorSnapshot → List PendingRequest → Assignments
  | .fcfs, els, reqs => FCFS.select_calls els reqs
  | .scan, els, reqs => Scan.select_calls els reqs
  | .destination_dispatch c, els, reqs => DD.select_calls c els reqs

/-- Configuration error raised by `get_scheduler` for an unknown name:
carries the invalid value and the enumerated registry names (the
`ValueError` message interpolates exactly these two pieces of data). -/
inductive SchedulerError : Type
  | unknown (invalid : String) (available : List String)
deriving DecidableEq

/-- Registry mapping scheduler names to constructors.  Only the
`cluster_size` option of destination dispatch is representable; the
other constructors take no options. -/
def SCHEDULER_REGISTRY : List (String × (Option ℤ → SchedulerImpl)) :=
  [("fcfs", fun _ => .fcfs),
   ("scan", fun _ => .scan),
   ("destination_dispatch", fun options => .destination_dispatch (max 1 (options.getD 3)))]

/-- Translation of `get_scheduler`: look the lowercased name up in the
registry; unknown names raise a `ValueError` naming the invalid value
and listing the registry keys. -/
def get_scheduler (name : String) (options : Option ℤ) : Except SchedulerError SchedulerImpl :=
  match (SCHEDULER_REGISTRY.lookup (pyLower name)) with
  | none => .error (.unknown name (SCHEDULER_REGISTRY.map (fun p => p.1)))
  | some cls => .ok (cls options)

/-! ### `simulation/passenger.py` -/

/-- Represents a rider moving between floors. -/
structure Passenger where
  passenger_id : ℤ
  origin : ℤ
  destination : ℤ
  arrival_time : ℤ
  board_time : Option ℤ := none
  alight_time : Option ℤ := none
deriving DecidableEq

namespace Passenger

/-- Return +1 for up, -1 for down. -/
def direction (p : Passenger) : ℤ := if p.origin < p.destination then 1 else -1

def record_boarding (p : Passenger) (time_step : ℤ) : Passenger :=
  { p with board_time := some time_step }

def record_alighting (p : Passenger) (time_step : ℤ) : Passenger :=
  { p with alight_time := some time_step }

def wait_time (p : Passenger) : Option ℤ :=
  match p.board_time with
  | none => none
  | some b => some (b - p.arrival_time)

def ride_time (p : Passenger) : Option ℤ :=
  match p.board_time, p.alight_time with
  | some b, some a => some (a - b)
  | _, _ => none

end Passenger

/-! ### `simulation/floor.py` -/

/-- Represents a floor with directional queues. -/
structure Floor where
  number : ℤ
  up_queue : List Passenger := []
  down_queue : List Passenger := []
deriving DecidableEq

namespace Floor

def add_passenger (f : Floor) (p : Passenger) : Floor :=
  if 0 < p.direction then { f with up_queue := f.up_queue ++ [p] }
  else { f with down_queue := f.down_queue ++ [p] }

def has_waiting (f : Floor) : Bool := !f.up_queue.isEmpty || !f.down_queue.isEmpty

/-- Pop passengers from the front of the directional queue while there is
room (`while queue and len(boarded) < capacity`); returns the boarded
passengers and the mutated floor. -/
def board_passengers (f : Floor) (direction : ℤ) (capacity : ℤ) : List Passenger × Floor :=
  if 0 < direction then
    (f.up_queue.take capacity.toNat, { f with up_queue := f.up_queue.drop capacity.toNat })
  else
    (f.down_queue.take capacity.toNat, { f with down_queue := f.down_queue.drop capacity.toNat })

end Floor

/-! ### `simulation/simulation.py` (metrics tracker) -/

structure MetricsTracker where
  wait_times : List ℤ := []
  ride_times : List ℤ := []
  throughput : ℤ := 0
deriving DecidableEq

structure MetricsSnapshot where
  time_step : ℤ
  average_wait : ℚ
  wait_p95 : ℚ
  average_ride : ℚ
  ride_p95 : ℚ
  throughput : ℤ
deriving DecidableEq

namespace MetricsTracker

def record_wait_time (m : MetricsTracker) (p : Passenger) : MetricsTracker :=
  match p.wait_time with
  | some w => { m with wait_times := m.wait_times ++ [w] }
  | none => m

def record_ride_time (m : MetricsTracker) (p : Passenger) : MetricsTracker :=
  match p.ride_time with
  | some r => { m with ride_times := m.ride_times ++ [r], throughput := m.throughput + 1 }
  | none => m

/-- Translation of `MetricsTracker._average`. -/
def _average (values : List ℤ) : ℚ :=
  if values.isEmpty then 0 else (values.sum : ℚ) / (values.length : ℚ)

/-- Translation of `MetricsTracker._percentile` (nearest-rank with linear
interpolation); out-of-range indexing would be an `IndexError`, modelled
by `listIndex` returning `none` (`getD 0` never fires, see the totality
theorem). -/
def _percentile (values : List ℤ) (percentile : ℚ) : ℚ :=
  if values.isEmpty then 0
  else
    let sorted_vals := pySorted (fun a b => decide (a ≤ b)) values
    let k : ℚ := ((sorted_vals.length : ℚ) - 1) * percentile
    let f : ℤ := ⌊k⌋
    let c : ℤ := ⌈k⌉
    if f = c then (((listIndex sorted_vals (ratTrunc k)).getD 0 : ℤ) : ℚ)
    else
      let d0 := (((listIndex sorted_vals f).getD 0 : ℤ) : ℚ) * ((c : ℚ) - k)
      let d1 := (((listIndex sorted_vals c).getD 0 : ℤ) : ℚ) * (k - (f : ℚ))
      d0 + d1

/-- Translation of `MetricsTracker.snapshot`. -/
def snapshot (m : MetricsTracker) (time_step : ℤ) : MetricsSnapshot :=
  { time_step := time_step
    average_wait := _average m.wait_times
    wait_p95 := _percentile m.wait_times (95/100)
    average_ride := _average m.ride_times
    ride_p95 := _percentile m.ride_times (95/100)
    throughput := m.throughput }

end MetricsTracker

/-! ### `simulation/elevator.py` and `simulation/building.py`

The two modules are mutually recursive in Python (`Elevator.step` reads
floors through its `Building` argument and mutates them), so `Elevator`
and the floor-container part of `Building` are declared together. -/

inductive ElevatorStatus : Type
  | in_service
  | faulted
  | maintenance
deriving DecidableEq

/-- Door state: Python uses the strings "closed" / "open". -/
inductive DoorState : Type
  | closed
  | opened
deriving DecidableEq

/-- A simple elevator controller with door and target handling. -/
structure Elevator where
  elevator_id : ℤ
  capacity : ℤ
  speed_floors_per_tick : ℚ := 1
  acceleration_floors_per_tick2 : ℚ := 0
  door_dwell_ticks : ℤ := 1
  position : ℚ := 0
  targets : List ℤ := []
  passengers : List Passenger := []
  status : ElevatorStatus := .in_service
  door_state : DoorState := .closed
  door_timer : ℤ := 0
  stop_handled : Bool := false
deriving DecidableEq

/-- Container for floors and elevators with simple dispatch.  A
well-formed building has `floors.length = num_floors` with
`floors[i].number = i` (established by `__post_init__`). -/
structure Building where
  num_floors : ℤ
  floors : List Floor
  elevators : List Elevator
  scheduler_name : String := "fcfs"
  scheduler_options : Option ℤ := none
  scheduler : SchedulerImpl := .fcfs

namespace Building

/-- Translation of `Building.get_floor`: floor indices outside
`[0, num_floors)` are treated as absent. -/
def get_floor (b : Building) (floor_number : ℤ) : Option Floor :=
  if 0 ≤ floor_number ∧ floor_number < b.num_floors then b.floors.get? floor_number.toNat
  else none

/-- Translation of `Building.set_scheduler`: the name and options fields
are assigned before `get_scheduler` validates the name, so a raised
`ValueError` (the second component) leaves them overwritten. -/
def set_scheduler (b : Building) (name : String) (options : Option ℤ) :
    Building × Option SchedulerError :=
  let b := { b with scheduler_name := name, scheduler_options := options }
  match get_scheduler name options with
  | .ok sched => ({ b with scheduler := sched }, none)
  | .error e => (b, some e)

end Building

namespace Elevator

def in_service (e : Elevator) : Bool := e.status = .in_service

/-- Derived direction: 0 with no target, else the sign of
(head target − position). -/
def direction (e : Elevator) : ℤ :=
  match e.targets with
  | [] => 0
  | t :: _ =>
    if e.position < (t : ℚ) then 1
    else if (t : ℚ) < e.position then -1
    else 0

/-- Translation of `Elevator.assign_target` (no duplicate targets). -/
def assign_target (e : Elevator) (floor : ℤ) : Elevator :=
  if floor ∈ e.targets then e else { e with targets := e.targets ++ [floor] }

/-- Translation of `Elevator._should_stop_here`. -/
def _should_stop_here (e : Elevator) (building : Building) : Bool :=
  let at_floor := pyRound e.position
  if e.targets.head? = some at_floor then true
  else
    match building.get_floor at_floor with
    | none => false
    | some floor =>
      floor.has_waiting || e.passengers.any (fun p => p.destination == at_floor)

/-- Translation of `Elevator._move_towards_target`. -/
def _move_towards_target (e : Elevator) : Elevator :=
  match e.targets with
  | [] => e
  | target :: rest =>
    if |e.position - (target : ℚ)| ≤ e.speed_floors_per_tick then
      { e with position := (target : ℚ), targets := rest }
    else if e.position < (target : ℚ) then
      { e with position := e.position + e.speed_floors_per_tick }
    else
      { e with position := e.position - e.speed_floors_per_tick }

/-- Translation of `Elevator._open_doors`. -/
def _open_doors (e : Elevator) : Elevator :=
  { e with door_state := .opened, door_timer := e.door_dwell_ticks }

/-- Translation of `Elevator._handle_stop`: alight, board, record
metrics and refresh targets; returns the mutated elevator, building and
metrics tracker. -/
def _handle_stop (e : Elevator) (building : Building) (current_time : ℤ)
    (metrics : MetricsTracker) : Elevator × Building × MetricsTracker :=
  let floor_number := pyRound e.position
  match building.get_floor floor_number with
  | none => (e, building, metrics)
  | some floor =>
    -- Alight
    let alighted := (e.passengers.filter (fun p => p.destination == floor_number)).map
      (fun p => p.record_alighting current_time)
    let remaining_passengers := e.passengers.filter (fun p => !(p.destination == floor_number))
    let metrics := alighted.foldl (fun m p => m.record_ride_time p) metrics
    let e := { e with passengers := remaining_passengers }
    -- Board
    let free_space := e.capacity - (e.passengers.length : ℤ)
    let direction : ℤ := if Elevator.direction e = 0 then 1 else Elevator.direction e
    let boardResult := floor.board_passengers direction free_space
    let boarded := boardResult.1.map (fun p => p.record_boarding current_time)
    let metrics := boarded.foldl (fun m p => m.record_wait_time p) metrics
    let e := { e with passengers := e.passengers ++ boarded }
    let building := { building with floors := building.floors.set floor_number.toNat boardResult.2 }
    -- Refresh targets
    let e :=
      if e.targets.head? = some floor_number then { e with targets := e.targets.tail } else e
    let new_targets := boarded.foldl
      (fun ts p => if p.destination ∈ ts then ts else ts ++ [p.destination]) e.targets
    let e := { e with targets := new_targets }
    (e, building, metrics)

/-- Translation of `Elevator.step`: one tick of the door/motion state
machine.  Out-of-service elevators do nothing. -/
def step (e : Elevator) (building : Building) (current_time : ℤ) (metrics : MetricsTracker) :
    Elevator × Building × MetricsTracker :=
  if !e.in_service then (e, building, metrics)
  else if e.door_state = .opened then
    let handled : Elevator × Building × MetricsTracker :=
      if !e.stop_handled then
        let r := e._handle_stop building current_time metrics
        ({ r.1 with stop_handled := true }, r.2.1, r.2.2)
      else (e, building, metrics)
    let e2 : Elevator := { handled.1 with door_timer := handled.1.door_timer - 1 }
    let e2 : Elevator := if e2.door_timer ≤ 0 then { e2 with door_state := .closed } else e2
    (e2, handled.2.1, handled.2.2)
  else
    -- door_state = closed (the only remaining state)
    if !e.targets.isEmpty && e._should_stop_here building then
      ({ e._open_doors with stop_handled := false }, building, metrics)
    else
      let e2 := e._move_towards_target
      if !e2.targets.isEmpty && e2._should_stop_here building then
        ({ e2._open_doors with stop_handled := false }, building, metrics)
      else (e2, building, metrics)

/-- Translation of `Elevator.trigger_fault` (the reason is ignored). -/
def trigger_fault (e : Elevator) (reason : Option String := none) : Elevator :=
  let _ := reason
  { e with status := .faulted, targets := [], door_state := .closed }

/-- Translation of `Elevator.start_maintenance`. -/
def start_maintenance (e : Elevator) : Elevator :=
  { e with status := .maintenance, targets := [], door_state := .closed }

/-- Translation of `Elevator.restore_service`. -/
def restore_service (e : Elevator) : Elevator :=
  { e with status := .in_service }

end Elevator

namespace Building

/-- Per-floor part of `_collect_pending_requests`: one request per
non-empty directional queue. -/
def floorRequests (floor : Floor) : List PendingRequest :=
  (match floor.up_queue with
   | [] => []
   | p :: _ =>
     [{ origin := floor.number
        direction := 1
        requested_at := p.arrival_time
        passenger_count := (floor.up_queue.length : ℤ)
        destinations := floor.up_queue.map (fun q => q.destination) }]) ++
  (match floor.down_queue with
   | [] => []
   | p :: _ =>
     [{ origin := floor.number
        direction := -1
        requested_at := p.arrival_time
        passenger_count := (floor.down_queue.length : ℤ)
        destinations := floor.down_queue.map (fun q => q.destination) }])

/-- Translation of `Building._collect_pending_requests` (the
`current_time` argument is unused in the source as well). -/
def _collect_pending_requests (b : Building) (current_time : ℤ) : List PendingRequest :=
  let _ := current_time
  (b.floors.map floorRequests).flatten

/-- The `ElevatorSnapshot` literal built inside `_snapshot_elevators`. -/
def snapshotOf (elevator : Elevator) : ElevatorSnapshot :=
  { elevator_id := elevator.elevator_id
    position := elevator.position
    direction := elevator.direction
    targets := elevator.targets
    load := (elevator.passengers.length : ℤ)
    capacity := elevator.capacity
    cruise_speed := elevator.speed_floors_per_tick
    acceleration := elevator.acceleration_floors_per_tick2
    door_dwell := elevator.door_dwell_ticks }

/-- Translation of `Building._snapshot_elevators`: only in-service
elevators are snapshotted. -/
def _snapshot_elevators (b : Building) : List ElevatorSnapshot :=
  (b.elevators.filter (fun e => e.in_service)).map snapshotOf

/-- Translation of `Building._get_elevator`: first elevator with the id. -/
def _get_elevator (b : Building) (elevator_id : ℤ) : Option Elevator :=
  b.elevators.find? (fun e => e.elevator_id == elevator_id)

/-- Apply `assign_target` to the first elevator with the given id
(models mutating the object returned by `_get_elevator`). -/
def applyTarget (b : Building) (elevator_id : ℤ) (target : ℤ) : Building :=
  let updated := mutateFirst (fun e => e.elevator_id == elevator_id)
    (fun e => e.assign_target target) b.elevators
  { b with elevators := updated }

/-- Body of the assignment loop in `Building.dispatch`: look the
elevator up by id (skipping unknown ids) and append each target. -/
def applyAssignment (b : Building) (pair : ℤ × List ℤ) : Building :=
  match b._get_elevator pair.1 with
  | none => b
  | some _ => pair.2.foldl (fun b target => b.applyTarget pair.1 target) b

/-- Translation of `Building.dispatch`: collect requests, snapshot
in-service elevators, run the scheduler, apply the assignments to the
real elevators (unknown ids are skipped). -/
def dispatch (b : Building) (current_time : ℤ) : Building :=
  let requests := b._collect_pending_requests current_time
  let snapshots := b._snapshot_elevators
  let assignments := b.scheduler.select_calls snapshots requests
  assignments.foldl applyAssignment b

end Building

/-! ## Theorems -/

/-- C8: `trigger_fault` and `start_maintenance` set the status, clear
the target list and force the doors closed, and change nothing else:
position, passenger manifest, capacity, speed, acceleration, door dwell
(and id, door timer, handled flag) are untouched, so onboard passengers
stay on board.  `restore_service` changes only the status field. -/
theorem fault_commands_frame (e : Elevator) (reason : Option String) :
    ((e.trigger_fault reason).status = .faulted ∧
      (e.trigger_fault reason).targets = [] ∧
      (e.trigger_fault reason).door_state = .closed ∧
      (e.trigger_fault reason).position = e.position ∧
      (e.trigger_fault reason).passengers = e.passengers ∧
      (e.trigger_fault reason).capacity = e.capacity ∧
      (e.trigger_fault reason).speed_floors_per_tick = e.speed_floors_per_tick ∧
      (e.trigger_fault reason).acceleration_floors_per_tick2 = e.acceleration_floors_per_tick2 ∧
      (e.trigger_fault reason).door_dwell_ticks = e.door_dwell_ticks ∧
      (e.trigger_fault reason).elevator_id = e.elevator_id ∧
      (e.trigger_fault reason).door_timer = e.door_timer ∧
      (e.trigger_fault reason).stop_handled = e.stop_handled) ∧
    (e.start_maintenance.status = .maintenance ∧
      e.start_maintenance.targets = [] ∧
      e.start_maintenance.door_state = .closed ∧
      e.start_maintenance.position = e.position ∧
      e.start_maintenance.passengers = e.passengers ∧
      e.start_maintenance.capacity = e.capacity ∧
      e.start_maintenance.speed_floors_per_tick = e.speed_floors_per_tick ∧
      e.start_maintenance.acceleration_floors_per_tick2 = e.acceleration_floors_per_tick2 ∧
      e.start_maintenance.door_dwell_ticks = e.door_dwell_ticks ∧
      e.start_maintenance.elevator_id = e.elevator_id ∧
      e.start_maintenance.door_timer = e.door_timer ∧
      e.start_maintenance.stop_handled = e.stop_handled) ∧
    e.restore_service = { e with status := .in_service } := by
  refine ⟨⟨rfl, rfl, rfl, rfl, rfl, rfl, rfl, rfl, rfl, rfl, rfl, rfl⟩,
    ⟨rfl, rfl, rfl, rfl, rfl, rfl, rfl, rfl, rfl, rfl, rfl, rfl⟩, rfl⟩

/-- One-floor building running FCFS, used to exercise `set_scheduler`. -/
def c2Building : Building :=
  { num_floors := 1, floors := [{ number := 0 }], elevators := [],
    scheduler_name := "fcfs", scheduler_options := none, scheduler := .fcfs }

/-- C2 (counterexample): swapping to the unknown name "bogus" does raise
the configuration error, but the stored scheduler name (and options) are
overwritten before validation, so the building state is NOT unchanged:
`scheduler_name` becomes "bogus" although it was "fcfs" before the call. -/
theorem set_scheduler_unknown_mutates :
    (c2Building.set_scheduler "bogus" none).2 =
        some (.unknown "bogus" ["fcfs", "scan", "destination_dispatch"]) ∧
      (c2Building.set_scheduler "bogus" none).1.scheduler_name = "bogus" ∧
      c2Building.scheduler_name = "fcfs" ∧
      "bogus" ≠ "fcfs" := by
  have hlook : (SCHEDULER_REGISTRY.lookup (pyLower "bogus")) = none :=
    Option.isNone_iff_eq_none.mp (by decide)
  refine ⟨?_, ?_, rfl, by decide⟩
  · show (Building.set_scheduler _ "bogus" none).2 = _
    rw [Building.set_scheduler, get_scheduler, hlook]
    rfl
  · show (Building.set_scheduler _ "bogus" none).1.scheduler_name = _
    rw [Building.set_scheduler, get_scheduler, hlook]

/-- C2 (amended): calling `Building.set_scheduler` with an unrecognized
scheduler name fails with a configuration error whose payload names the
invalid value and enumerates the valid scheduler names, and leaves the
previously active scheduler object (and floors/elevators) unchanged;
the stored scheduler name and options, however, are overwritten with the
invalid arguments before validation happens. -/
theorem set_scheduler_unknown_spec (b : Building) (name : String) (options : Option ℤ)
    (h : (SCHEDULER_REGISTRY.lookup (pyLower name)) = none) :
    (b.set_scheduler name options).2 =
        some (.unknown name ["fcfs", "scan", "destination_dispatch"]) ∧
      (b.set_scheduler name options).1.scheduler = b.scheduler ∧
      (b.set_scheduler name options).1.num_floors = b.num_floors ∧
      (b.set_scheduler name options).1.floors = b.floors ∧
      (b.set_scheduler name options).1.elevators = b.elevators ∧
      (b.set_scheduler name options).1.scheduler_name = name ∧
      (b.set_scheduler name options).1.scheduler_options = options := by
  rw [Building.set_scheduler, get_scheduler, h]
  exact ⟨rfl, rfl, rfl, rfl, rfl, rfl, rfl⟩

/-- C2 (witness): the amended statement evaluated for the name "bogus"
on a one-floor building running FCFS. -/
theorem set_scheduler_unknown_spec_witness :
    (c2Building.set_scheduler "bogus" none).2 =
        some (.unknown "bogus" ["fcfs", "scan", "destination_dispatch"]) ∧
      (c2Building.set_scheduler "bogus" none).1.scheduler = c2Building.scheduler ∧
      (c2Building.set_scheduler "bogus" none).1.num_floors = c2Building.num_floors ∧
      (c2Building.set_scheduler "bogus" none).1.floors = c2Building.floors ∧
      (c2Building.set_scheduler "bogus" none).1.elevators = c2Building.elevators ∧
      (c2Building.set_scheduler "bogus" none).1.scheduler_name = "bogus" ∧
      (c2Building.set_scheduler "bogus" none).1.scheduler_options = none :=
  set_scheduler_unknown_spec c2Building "bogus" none (Option.isNone_iff_eq_none.mp (by decide))

/-- Near elevator with room for 2 passengers (id 0, position 0). -/
def c3ElevA : ElevatorSnapshot :=
  { elevator_id := 0, position := 0, direction := 0, targets := [], load := 0,
    capacity := 2, cruise_speed := 1, acceleration := 0, door_dwell := 1 }

/-- Far elevator with plenty of room (id 1, position 10). -/
def c3ElevB : ElevatorSnapshot :=
  { elevator_id := 1, position := 10, direction := 0, targets := [], load := 0,
    capacity := 8, cruise_speed := 1, acceleration := 0, door_dwell := 1 }

/-- Earlier request: 2 passengers at floor 0. -/
def c3Req1 : PendingRequest :=
  { origin := 0, direction := 1, requested_at := 0, passenger_count := 2, destinations := [5] }

/-- Later request: 1 passenger at floor 1. -/
def c3Req2 : PendingRequest :=
  { origin := 1, direction := 1, requested_at := 1, passenger_count := 1, destinations := [5] }

/-- C3 (counterexample): with elevator 0 (capacity 2, position 0) and
elevator 1 (capacity 8, position 10), a first request for 2 passengers at
floor 0 is assigned to elevator 0.  The claim says the second request
(1 passenger at floor 1) then observes elevator 0 with load 0 + 2 = 2,
hence no available capacity, and must go to elevator 1.  In the code the
simulated load stays 0 — `_update_snapshot` copies `load` verbatim and
only extends the target list — so FCFS assigns both origins to elevator
0 and the returned mapping is `{0: [0, 1]}`, not `{0: [0], 1: [1]}`. -/
theorem fcfs_snapshot_load_not_updated :
    FCFS.select_calls [c3ElevA, c3ElevB] [c3Req1, c3Req2] = [(0, [0, 1])] ∧
      (FCFS._update_snapshot [c3ElevA, c3ElevB] c3ElevA c3Req1).map (fun e => (e.targets, e.load)) =
        [([0], 0), ([], 0)] := by
  constructor
  · norm_num [FCFS.select_calls, FCFS.selectLoop, FCFS._choose_elevator, FCFS._update_snapshot,
      FCFS.chooseKey, FCFS.chooseKeyLE, pySorted, insertStable, estimate_travel_time,
      EstTime.lt, EstTime.equiv, EstTime.le, ElevatorSnapshot.available_capacity,
      dictAppend, List.filter, c3ElevA, c3ElevB, c3Req1, c3Req2]
  · norm_num [FCFS._update_snapshot, c3ElevA, c3ElevB, c3Req1]

/-- C3 (amended): in FCFS `select_calls`, after a request is assigned,
every later request of the same invocation observes an in-memory
snapshot of the chosen elevator whose target list has been extended by
the assigned origin (when not already present) while its load — and
every other physical field — is copied unchanged; cross-request coupling
within one cycle is through the simulated target list only.  The first
conjunct exhibits the threading of `_update_snapshot` through the
request loop; the second describes `_update_snapshot` fieldwise. -/
theorem fcfs_snapshot_coupling (elevators : List ElevatorSnapshot)
    (chosen : ElevatorSnapshot) (request : PendingRequest) (rest : List PendingRequest)
    (assignments : Assignments) :
    (FCFS.selectLoop (request :: rest) elevators assignments =
      match FCFS._choose_elevator elevators request with
      | none => FCFS.selectLoop rest elevators assignments
      | some candidate =>
        FCFS.selectLoop rest (FCFS._update_snapshot elevators candidate request)
          (dictAppend assignments candidate.elevator_id request.origin)) ∧
    List.Forall₂
      (fun (old new : ElevatorSnapshot) =>
        new.elevator_id = old.elevator_id ∧
        new.position = old.position ∧
        new.direction = old.direction ∧
        new.load = old.load ∧
        new.capacity = old.capacity ∧
        new.cruise_speed = old.cruise_speed ∧
        new.acceleration = old.acceleration ∧
        new.door_dwell = old.door_dwell ∧
        new.targets =
          (if old.elevator_id = chosen.elevator_id then
            (if request.origin ∈ old.targets then old.targets
             else old.targets ++ [request.origin])
           else old.targets))
      elevators (FCFS._update_snapshot elevators chosen request) := by
  refine ⟨rfl, ?_⟩
  induction elevators with
  | nil => exact List.Forall₂.nil
  | cons e es ih =>
    refine List.Forall₂.cons ?_ ih
    by_cases h : e.elevator_id = chosen.elevator_id
    · simp [FCFS._update_snapshot, h]
    · simp [FCFS._update_snapshot, h]

/-! ### Supporting lemmas: floor arithmetic -/

/-- Euclidean division by a positive integer computes the floor of the
exact rational quotient. -/
theorem floor_rat_div_pos (x : ℚ) (c : ℤ) (hc : 0 < c) : ⌊x / (c : ℚ)⌋ = ⌊x⌋ / c := by
  have h0 : (0 : ℚ) < (c : ℚ) := by exact_mod_cast hc
  refine Int.floor_eq_iff.mpr ⟨?_, ?_⟩
  · rw [le_div_iff₀ h0]
    have h1 : ⌊x⌋ / c * c ≤ ⌊x⌋ := Int.ediv_mul_le ⌊x⌋ (ne_of_gt hc)
    calc ((⌊x⌋ / c : ℤ) : ℚ) * (c : ℚ) = ((⌊x⌋ / c * c : ℤ) : ℚ) := by push_cast; ring
      _ ≤ ((⌊x⌋ : ℤ) : ℚ) := by exact_mod_cast h1
      _ ≤ x := Int.floor_le x
  · rw [div_lt_iff₀ h0]
    have h2 : ⌊x⌋ < (⌊x⌋ / c + 1) * c := Int.lt_ediv_add_one_mul_self ⌊x⌋ hc
    calc x < ((⌊x⌋ : ℤ) : ℚ) + 1 := Int.lt_floor_add_one x
      _ ≤ (((⌊x⌋ / c + 1) * c : ℤ) : ℚ) := by exact_mod_cast h2
      _ = (((⌊x⌋ / c : ℤ) : ℚ) + 1) * (c : ℚ) := by push_cast; ring

/-- The destination bucket of a non-empty list of non-negative
destinations is the floor of `average / cluster_size`. -/
theorem destination_bucket_eq_floor (c : ℤ) (hc : 1 ≤ c) (d : List ℤ)
    (hne : d ≠ []) (hnn : ∀ x ∈ d, 0 ≤ x) :
    DD._destination_bucket c d = ⌊(d.sum : ℚ) / (d.length : ℚ) / (c : ℚ)⌋ := by
  have hlen : 0 < d.length := List.length_pos.mpr hne
  have hsum : (0 : ℤ) ≤ d.sum := List.sum_nonneg hnn
  have havg : (0 : ℚ) ≤ (d.sum : ℚ) / (d.length : ℚ) := by
    apply div_nonneg
    · exact_mod_cast hsum
    · positivity
  rw [DD._destination_bucket, if_neg (by simp [hne]), ratTrunc, if_pos havg,
    Int.fdiv_eq_ediv _ (by omega), floor_rat_div_pos _ c (by omega)]

/-- C5: the destination-dispatch scheduler buckets requests by
`floor(average(destinations) / cluster_size)` — with bucket 0 for empty
destination lists — so for any `cluster_size ≥ 1` two requests with
non-empty, non-negative destination lists share a bucket exactly when
the floors of their average-over-cluster_size quotients coincide; and
every request stored in a cluster produced by `_cluster_requests` sits
under its own destination-bucket key. -/
theorem dd_bucket_arithmetic (c : ℤ) (hc : 1 ≤ c) (d1 d2 : List ℤ)
    (h1 : d1 ≠ []) (h2 : d2 ≠ []) (hn1 : ∀ x ∈ d1, 0 ≤ x) (hn2 : ∀ x ∈ d2, 0 ≤ x) :
    DD._destination_bucket c [] = 0 ∧
      DD._destination_bucket c d1 = ⌊(d1.sum : ℚ) / (d1.length : ℚ) / (c : ℚ)⌋ ∧
      (DD._destination_bucket c d1 = DD._destination_bucket c d2 ↔
        ⌊(d1.sum : ℚ) / (d1.length : ℚ) / (c : ℚ)⌋ =
          ⌊(d2.sum : ℚ) / (d2.length : ℚ) / (c : ℚ)⌋) ∧
      ∀ (reqs : List PendingRequest) (p : ℤ × List PendingRequest),
        p ∈ DD._cluster_requests c reqs → ∀ r ∈ p.2,
          DD._destination_bucket c r.destinations = p.1 := by
  refine ⟨rfl, destination_bucket_eq_floor c hc d1 h1 hn1, ?_, ?_⟩
  · rw [destination_bucket_eq_floor c hc d1 h1 hn1, destination_bucket_eq_floor c hc d2 h2 hn2]
  · intro reqs
    have key : ∀ (rs : List PendingRequest) (acc : List (ℤ × List PendingRequest)),
        (∀ p ∈ acc, ∀ r ∈ p.2, DD._destination_bucket c r.destinations = p.1) →
        ∀ p ∈ rs.foldl
            (fun buckets request =>
              dictAppend buckets (DD._destination_bucket c request.destinations) request)
            acc,
          ∀ r ∈ p.2, DD._destination_bucket c r.destinations = p.1 := by
      intro rs
      induction rs with
      | nil => intro acc hacc; simpa using hacc
      | cons q qs ih =>
        intro acc hacc
        refine ih _ ?_
        have happ : ∀ (m : List (ℤ × List PendingRequest)) (k : ℤ) (v : PendingRequest),
            (∀ p ∈ m, ∀ r ∈ p.2, DD._destination_bucket c r.destinations = p.1) →
            DD._destination_bucket c v.destinations = k →
            ∀ p ∈ dictAppend m k v, ∀ r ∈ p.2,
              DD._destination_bucket c r.destinations = p.1 := by
          intro m
          induction m with
          | nil =>
            intro k v _ hv p hp r hr
            simp only [dictAppend, List.mem_singleton] at hp
            subst hp
            simp only [List.mem_singleton] at hr
            subst hr
            exact hv
          | cons w ws ihm =>
            intro k v hm hv p hp r hr
            by_cases hw : w.1 = k
            · simp only [dictAppend, if_pos hw] at hp
              rcases List.mem_cons.mp hp with h | h
              · subst h
                simp only at hr
                rcases List.mem_append.mp hr with h2 | h2
                · exact hm w (List.mem_cons_self w ws) r h2
                · simp only [List.mem_singleton] at h2
                  subst h2
                  exact hv.trans hw.symm
              · exact hm p (List.mem_cons_of_mem w h) r hr
            · simp only [dictAppend, if_neg hw] at hp
              rcases List.mem_cons.mp hp with h | h
              · subst h
                exact hm p (List.mem_cons_self p ws) r hr
              · exact ihm k v (fun p hp => hm p (List.mem_cons_of_mem w hp)) hv p h r hr
        exact happ acc _ q hacc rfl
    intro p hp
    exact key reqs [] (by simp) p (by simpa [DD._cluster_requests] using hp)

/-- C5 (witness): `cluster_size = 3` with destination lists averaging 9
and 11 — the buckets agree because `⌊9/3⌋ = ⌊11/3⌋ = 3`. -/
theorem dd_bucket_arithmetic_witness :
    DD._destination_bucket 3 [] = 0 ∧
      DD._destination_bucket 3 [9] = ⌊(([9] : List ℤ).sum : ℚ) / ((([9] : List ℤ).length : ℕ) : ℚ) / ((3 : ℤ) : ℚ)⌋ ∧
      (DD._destination_bucket 3 [9] = DD._destination_bucket 3 [11] ↔
        ⌊(([9] : List ℤ).sum : ℚ) / ((([9] : List ℤ).length : ℕ) : ℚ) / ((3 : ℤ) : ℚ)⌋ =
          ⌊(([11] : List ℤ).sum : ℚ) / ((([11] : List ℤ).length : ℕ) : ℚ) / ((3 : ℤ) : ℚ)⌋) ∧
      ∀ (reqs : List PendingRequest) (p : ℤ × List PendingRequest),
        p ∈ DD._cluster_requests 3 reqs → ∀ r ∈ p.2,
          DD._destination_bucket 3 r.destinations = p.1 :=
  dd_bucket_arithmetic 3 (by norm_num) [9] [11] (by simp) (by simp)
    (by norm_num) (by norm_num)

/-! ### Supporting lemmas: sorting and indexing -/

theorem insertStable_length {α : Type} (le : α → α → Bool) (x : α) (l : List α) :
    (insertStable le x l).length = l.length + 1 := by
  induction l with
  | nil => rfl
  | cons y ys ih =>
    rw [insertStable]
    split
    · rfl
    · simp [ih]

theorem pySorted_length {α : Type} (le : α → α → Bool) (l : List α) :
    (pySorted le l).length = l.length := by
  induction l with
  | nil => rfl
  | cons x xs ih => rw [pySorted, insertStable_length, ih]; rfl

theorem listIndex_isSome {α : Type} (l : List α) (i : ℤ) (h0 : 0 ≤ i)
    (h1 : i < (l.length : ℤ)) : (listIndex l i).isSome = true := by
  rw [listIndex, if_pos h0, Option.isSome_iff_ne_none]
  intro hnone
  rw [List.get?_eq_none] at hnone
  omega

/-- C6: the shared travel-time estimator returns 0 at zero distance;
`distance / speed` when acceleration ≤ 0 and speed > 0; infinity when
speed ≤ 0 at positive distance; and otherwise, with
`t_c = speed / acceleration` and `d_c = ½ · acceleration · t_c²`, the
triangular time `2·√(distance / acceleration)` when `2·d_c ≥ distance`
and the trapezoidal time `2·t_c + (distance − 2·d_c) / speed` otherwise. -/
theorem estimate_travel_time_spec (e : ElevatorSnapshot) (floor : ℤ) :
    (|e.position - (floor : ℚ)| = 0 → (estimate_travel_time e floor).toReal = 0) ∧
      (e.acceleration ≤ 0 → 0 < e.cruise_speed →
        (estimate_travel_time e floor).toReal =
          ((|e.position - (floor : ℚ)| : ℚ) : ℝ) / ((e.cruise_speed : ℚ) : ℝ)) ∧
      (e.cruise_speed ≤ 0 → 0 < |e.position - (floor : ℚ)| →
        estimate_travel_time e floor = .inf) ∧
      (0 < e.acceleration → 0 < e.cruise_speed → 0 < |e.position - (floor : ℚ)| →
        (|e.position - (floor : ℚ)| ≤
            2 * (1/2 * e.acceleration * (e.cruise_speed / e.acceleration) ^ 2) →
          (estimate_travel_time e floor).toReal =
            2 * Real.sqrt (((|e.position - (floor : ℚ)| : ℚ) : ℝ) / ((e.acceleration : ℚ) : ℝ))) ∧
        (2 * (1/2 * e.acceleration * (e.cruise_speed / e.acceleration) ^ 2) <
            |e.position - (floor : ℚ)| →
          (estimate_travel_time e floor).toReal =
            2 * (((e.cruise_speed : ℚ) : ℝ) / ((e.acceleration : ℚ) : ℝ)) +
              (((|e.position - (floor : ℚ)| : ℚ) : ℝ) -
                  2 * (1/2 * ((e.acceleration : ℚ) : ℝ) *
                    (((e.cruise_speed : ℚ) : ℝ) / ((e.acceleration : ℚ) : ℝ)) ^ 2)) /
                ((e.cruise_speed : ℚ) : ℝ))) := by
  refine ⟨?_, ?_, ?_, ?_⟩
  · intro h
    simp [estimate_travel_time, h, EstTime.toReal]
  · intro ha hs
    by_cases hd : |e.position - (floor : ℚ)| = 0
    · simp [estimate_travel_time, hd, EstTime.toReal]
    · rw [estimate_travel_time]
      simp only [if_neg hd, if_pos (Or.inl ha), if_pos hs, EstTime.toReal]
      push_cast
      ring
  · intro hs hd
    rw [estimate_travel_time]
    simp only [if_neg hd.ne', if_pos (Or.inr hs), if_neg (not_lt.mpr hs)]
  · intro ha hs hd
    have hcond : ¬ (e.acceleration ≤ 0 ∨ e.cruise_speed ≤ 0) := by
      push_neg
      exact ⟨ha, hs⟩
    constructor
    · intro htri
      rw [estimate_travel_time]
      simp only [if_neg hd.ne.symm, if_neg hcond, if_pos htri, EstTime.toReal]
      push_cast
      ring
    · intro htrap
      rw [estimate_travel_time]
      simp only [if_neg hd.ne.symm, if_neg hcond, if_neg (not_le.mpr htrap), EstTime.toReal]
      push_cast
      ring

/-- C6 (witness): triangular-branch evaluation at position 0, target
floor 1, acceleration 1, speed 10 — the estimate is `2·√1`. -/
theorem estimate_travel_time_spec_witness :
    (estimate_travel_time
        { elevator_id := 0, position := 0, direction := 0, targets := [], load := 0,
          capacity := 8, cruise_speed := 10, acceleration := 1, door_dwell := 1 }
        1).toReal =
      2 * Real.sqrt
        (((|(0 : ℚ) - ((1 : ℤ) : ℚ)| : ℚ) : ℝ) / (((1 : ℚ) : ℚ) : ℝ)) := by
  have h := (estimate_travel_time_spec
    { elevator_id := 0, position := 0, direction := 0, targets := [], load := 0,
      capacity := 8, cruise_speed := 10, acceleration := 1, door_dwell := 1 } 1).2.2.2
      (by norm_num) (by norm_num) (by norm_num)
  exact h.1 (by norm_num)

/-- C10: `MetricsTracker.snapshot` is total: with no recorded wait
(resp. ride) samples the mean and 95th-percentile fields are 0 rather
than an error, and for a non-empty sample list with percentile in
`[0, 1]` every index used by `_percentile` is in range (`listIndex`
returns `some`, never the `IndexError` case). -/
theorem metrics_snapshot_total (m : MetricsTracker) (t : ℤ) (values : List ℤ) (q : ℚ)
    (hw : m.wait_times = []) (hr : m.ride_times = [])
    (hvne : values ≠ []) (hq0 : 0 ≤ q) (hq1 : q ≤ 1) :
    ((m.snapshot t).average_wait = 0 ∧ (m.snapshot t).wait_p95 = 0 ∧
      (m.snapshot t).average_ride = 0 ∧ (m.snapshot t).ride_p95 = 0) ∧
      (listIndex (pySorted (fun a b => decide (a ≤ b)) values)
          (ratTrunc ((((pySorted (fun a b => decide (a ≤ b)) values).length : ℚ) - 1) * q))).isSome = true ∧
      (listIndex (pySorted (fun a b => decide (a ≤ b)) values)
          ⌊(((pySorted (fun a b => decide (a ≤ b)) values).length : ℚ) - 1) * q⌋).isSome = true ∧
      (listIndex (pySorted (fun a b => decide (a ≤ b)) values)
          ⌈(((pySorted (fun a b => decide (a ≤ b)) values).length : ℚ) - 1) * q⌉).isSome = true := by
  have hempty : ∀ t, (MetricsTracker.snapshot m t).average_wait = 0 ∧
      (MetricsTracker.snapshot m t).wait_p95 = 0 ∧
      (MetricsTracker.snapshot m t).average_ride = 0 ∧
      (MetricsTracker.snapshot m t).ride_p95 = 0 := by
    intro t
    simp [MetricsTracker.snapshot, MetricsTracker._average, MetricsTracker._percentile, hw, hr]
  set s := pySorted (fun a b => decide (a ≤ b)) values with hs
  have hlen : 0 < s.length := by
    rw [hs, pySorted_length]
    exact List.length_pos.mpr hvne
  set k : ℚ := (((s.length : ℕ) : ℚ) - 1) * q with hk
  have hk0 : 0 ≤ k := by
    apply mul_nonneg _ hq0
    have : (1 : ℚ) ≤ ((s.length : ℕ) : ℚ) := by exact_mod_cast hlen
    linarith
  have hkle : k ≤ ((s.length : ℕ) : ℚ) - 1 := by
    have h1 : (((s.length : ℕ) : ℚ) - 1) * q ≤ (((s.length : ℕ) : ℚ) - 1) * 1 := by
      apply mul_le_mul_of_nonneg_left hq1
      have : (1 : ℚ) ≤ ((s.length : ℕ) : ℚ) := by exact_mod_cast hlen
      linarith
    simpa using h1
  have hfloor0 : 0 ≤ ⌊k⌋ := Int.le_floor.mpr (by exact_mod_cast hk0)
  have hfloorub : ⌊k⌋ < (s.length : ℤ) := by
    have h1 : ⌊k⌋ ≤ ⌊((s.length : ℕ) : ℚ) - 1⌋ := Int.floor_le_floor hkle
    have h2 : ⌊((s.length : ℕ) : ℚ) - 1⌋ = (s.length : ℤ) - 1 := by
      rw [show ((s.length : ℕ) : ℚ) - 1 = (((s.length : ℤ) - 1 : ℤ) : ℚ) by push_cast; ring,
        Int.floor_intCast]
    omega
  have hceil0 : 0 ≤ ⌈k⌉ := le_trans hfloor0 (Int.floor_le_ceil k)
  have hceilub : ⌈k⌉ < (s.length : ℤ) := by
    have h1 : ⌈k⌉ ≤ (s.length : ℤ) - 1 := by
      apply Int.ceil_le.mpr
      rw [show ((((s.length : ℤ) - 1 : ℤ)) : ℚ) = ((s.length : ℕ) : ℚ) - 1 by push_cast; ring]
      exact hkle
    omega
  have htrunc : ratTrunc k = ⌊k⌋ := by rw [ratTrunc, if_pos hk0]
  refine ⟨hempty t, ?_, ?_, ?_⟩
  · rw [htrunc]
    exact listIndex_isSome s ⌊k⌋ hfloor0 hfloorub
  · exact listIndex_isSome s ⌊k⌋ hfloor0 hfloorub
  · exact listIndex_isSome s ⌈k⌉ hceil0 hceilub

/-- C10 (witness): the empty tracker snapshots to all-zero means and
percentiles, and the percentile indices are in range for `[3]` at the
95th percentile. -/
theorem metrics_snapshot_total_witness :
    (((⟨[], [], 0⟩ : MetricsTracker).snapshot 0).average_wait = 0 ∧
      ((⟨[], [], 0⟩ : MetricsTracker).snapshot 0).wait_p95 = 0 ∧
      ((⟨[], [], 0⟩ : MetricsTracker).snapshot 0).average_ride = 0 ∧
      ((⟨[], [], 0⟩ : MetricsTracker).snapshot 0).ride_p95 = 0) ∧
      (listIndex (pySorted (fun a b => decide (a ≤ b)) [(3 : ℤ)])
          (ratTrunc ((((pySorted (fun a b => decide (a ≤ b)) [(3 : ℤ)]).length : ℚ) - 1) * (95/100)))).isSome = true ∧
      (listIndex (pySorted (fun a b => decide (a ≤ b)) [(3 : ℤ)])
          ⌊(((pySorted (fun a b => decide (a ≤ b)) [(3 : ℤ)]).length : ℚ) - 1) * (95/100)⌋).isSome = true ∧
      (listIndex (pySorted (fun a b => decide (a ≤ b)) [(3 : ℤ)])
          ⌈(((pySorted (fun a b => decide (a ≤ b)) [(3 : ℤ)]).length : ℚ) - 1) * (95/100)⌉).isSome = true :=
  metrics_snapshot_total ⟨[], [], 0⟩ 0 [3] (95/100) rfl rfl (by simp) (by norm_num) (by norm_num)

/-! ### Claim C1: door opening on the stop condition -/

/-- Waiting passenger at floor 0 bound for floor 5. -/
def c1Passenger : Passenger :=
  { passenger_id := 0, origin := 0, destination := 5, arrival_time := 0 }

/-- Six-floor building whose ground floor has one waiting passenger. -/
def c1Building : Building :=
  { num_floors := 6,
    floors := [{ number := 0, up_queue := [c1Passenger] }, { number := 1 }, { number := 2 },
      { number := 3 }, { number := 4 }, { number := 5 }],
    elevators := [], scheduler_name := "fcfs", scheduler_options := none, scheduler := .fcfs }

/-- Idle in-service elevator at position 0 with no targets and doors
closed (all remaining fields are the dataclass defaults). -/
def c1Elevator : Elevator := { elevator_id := 0, capacity := 8 }

/-- C1 (counterexample): the elevator stands in service with doors
closed at floor 0, and the claimed stop condition holds there — the
floor has a waiting passenger.  Both stop checks in `Elevator.step` are
guarded by `if self.targets`, which is empty here, so the tick leaves
the elevator completely unchanged: the doors do NOT open. -/
theorem step_ignores_stop_condition_without_targets :
    c1Elevator.status = .in_service ∧
      c1Elevator.door_state = .closed ∧
      c1Elevator.targets = [] ∧
      (c1Building.get_floor (pyRound c1Elevator.position)).map Floor.has_waiting = some true ∧
      (c1Elevator.step c1Building 0 ⟨[], [], 0⟩).1.door_state = DoorState.closed ∧
      c1Elevator.step c1Building 0 ⟨[], [], 0⟩ = (c1Elevator, c1Building, ⟨[], [], 0⟩) := by
  have hstep : c1Elevator.step c1Building 0 ⟨[], [], 0⟩ = (c1Elevator, c1Building, ⟨[], [], 0⟩) := by
    rw [Elevator.step]
    norm_num [c1Elevator, Elevator.in_service, Elevator._move_towards_target]
    intro h
    exact absurd h (by decide)
  refine ⟨rfl, rfl, rfl, ?_, ?_, hstep⟩
  · norm_num [c1Building, c1Elevator, c1Passenger, Building.get_floor, pyRound, Floor.has_waiting]
  · rw [hstep]
    rfl

/-- C1 (amended): for an in-service elevator with doors closed and a
NON-EMPTY target list, if the stop condition of the specification holds
at the current rounded position — the rounded position equals the head
target, or the floor at that position exists and has waiting passengers,
or the floor exists and some onboard passenger is destined for it — then
`Elevator.step` opens the doors and arms the dwell timer before any
movement on that tick, resetting the stop-handled flag so that the
boarding/alighting side effect runs on the next tick; position,
passengers, floors and metrics are untouched on this tick. -/
theorem step_opens_doors_on_stop_condition (e : Elevator) (b : Building) (t : ℤ)
    (m : MetricsTracker)
    (hs : e.status = .in_service) (hd : e.door_state = .closed) (ht : e.targets ≠ [])
    (hstop : e.targets.head? = some (pyRound e.position) ∨
      (b.get_floor (pyRound e.position)).map Floor.has_waiting = some true ∨
      ((b.get_floor (pyRound e.position)).isSome = true ∧
        ∃ p ∈ e.passengers, p.destination = pyRound e.position)) :
    e.step b t m =
      ({ e with door_state := .opened, door_timer := e.door_dwell_ticks, stop_handled := false },
        b, m) := by
  have hshould : e._should_stop_here b = true := by
    simp only [Elevator._should_stop_here]
    rcases hstop with h | h | h
    · simp [h]
    · rcases Option.map_eq_some'.mp h with ⟨f, hf, hw⟩
      split
      · rfl
      · rw [hf]
        simp [hw]
    · rcases h with ⟨hsome, p, hp, hdest⟩
      rcases Option.isSome_iff_exists.mp hsome with ⟨f, hf⟩
      split
      · rfl
      · rw [hf]
        have hany : e.passengers.any (fun p => p.destination == pyRound e.position) = true := by
          rw [List.any_eq_true]
          exact ⟨p, hp, by simp [hdest]⟩
        simp [hany]
  have hin : e.in_service = true := by simp [Elevator.in_service, hs]
  have hne : e.targets.isEmpty = false := List.isEmpty_eq_false.mpr ht
  rw [Elevator.step]
  rw [if_neg (by simp [hin])]
  rw [if_neg (by simp [hd])]
  rw [if_pos (by simp [hne, hshould])]
  rfl

/-- In-service elevator already targeting its own floor 0. -/
def c1ElevatorTargeted : Elevator := { elevator_id := 0, capacity := 8, targets := [0] }

/-- C1 (witness): the amended statement evaluated for an elevator at
floor 0 whose head target is floor 0 in the six-floor building. -/
theorem step_opens_doors_on_stop_condition_witness :
    c1ElevatorTargeted.step c1Building 0 ⟨[], [], 0⟩ =
      ({ elevator_id := 0, capacity := 8, speed_floors_per_tick := 1,
          acceleration_floors_per_tick2 := 0, door_dwell_ticks := 1, position := 0,
          targets := [0], passengers := [], status := .in_service, door_state := .opened,
          door_timer := 1, stop_handled := false },
        c1Building, ⟨[], [], 0⟩) :=
  step_opens_doors_on_stop_condition c1ElevatorTargeted c1Building 0 ⟨[], [], 0⟩ rfl rfl
    (by simp [c1ElevatorTargeted])
    (Or.inl (by norm_num [c1ElevatorTargeted, pyRound]))

/-! ### Claim C7: the capacity invariant -/

theorem board_passengers_length_le (f : Floor) (d cap : ℤ) :
    ((f.board_passengers d cap).1.length : ℤ) ≤ max 0 cap := by
  rw [Floor.board_passengers]
  split <;> simp [List.length_take] <;> omega

/-- `_handle_stop` never boards beyond `capacity - len(passengers)`, so
the passenger count stays within the (unchanged) capacity. -/
theorem handle_stop_passengers (e : Elevator) (b : Building) (t : ℤ) (m : MetricsTracker)
    (hinv : (e.passengers.length : ℤ) ≤ e.capacity) :
    ((e._handle_stop b t m).1.passengers.length : ℤ) ≤ e.capacity ∧
      (e._handle_stop b t m).1.capacity = e.capacity := by
  rw [Elevator._handle_stop]
  cases hfl : b.get_floor (pyRound e.position) with
  | none => exact ⟨hinv, rfl⟩
  | some floor =>
    constructor
    · simp only [apply_ite Elevator.passengers, ite_self, List.length_append, List.length_map,
        Nat.cast_add]
      refine le_trans (add_le_add_left (board_passengers_length_le floor _ _) _) ?_
      have hrem : ((List.filter (fun p => !(p.destination == pyRound e.position)) e.passengers).length : ℤ) ≤ e.capacity :=
        le_trans (by exact_mod_cast List.length_filter_le _ _) hinv
      omega
    · simp only [apply_ite Elevator.capacity, ite_self]

theorem move_towards_target_frame (e : Elevator) :
    e._move_towards_target.passengers = e.passengers ∧
      e._move_towards_target.capacity = e.capacity := by
  rw [Elevator._move_towards_target]
  split
  · exact ⟨rfl, rfl⟩
  · split_ifs <;> exact ⟨rfl, rfl⟩

theorem step_passengers (e : Elevator) (b : Building) (t : ℤ) (m : MetricsTracker)
    (hinv : (e.passengers.length : ℤ) ≤ e.capacity) :
    ((e.step b t m).1.passengers.length : ℤ) ≤ (e.step b t m).1.capacity := by
  rw [Elevator.step]
  by_cases h1 : (!e.in_service) = true
  · simp only [if_pos h1]
    exact hinv
  · simp only [if_neg h1]
    by_cases h2 : e.door_state = DoorState.opened
    · simp only [if_pos h2]
      by_cases h3 : (!e.stop_handled) = true
      · have hh := handle_stop_passengers e b t m hinv
        simp only [if_pos h3, apply_ite Elevator.passengers, apply_ite Elevator.capacity, ite_self]
        rw [hh.2]
        exact hh.1
      · simp only [if_neg h3, apply_ite Elevator.passengers, apply_ite Elevator.capacity, ite_self]
        exact hinv
    · simp only [if_neg h2]
      by_cases h4 : (!e.targets.isEmpty && e._should_stop_here b) = true
      · simp only [if_pos h4, Elevator._open_doors]
        exact hinv
      · simp only [if_neg h4]
        have hf := move_towards_target_frame e
        by_cases h5 : (!(e._move_towards_target).targets.isEmpty &&
            (e._move_towards_target)._should_stop_here b) = true
        · simp only [if_pos h5, Elevator._open_doors]
          rw [hf.1, hf.2]
          exact hinv
        · simp only [if_neg h5]
          rw [hf.1, hf.2]
          exact hinv

/-- C7: for every elevator whose passenger count initially satisfies
`0 ≤ len(passengers) ≤ capacity`, each operation of the simulation —
`Elevator.step` with its boarding through `Floor.board_passengers`, and
the fault/maintenance/restore commands — preserves
`0 ≤ len(passengers) ≤ capacity` (the count against the operation's own
resulting capacity, which these operations never change). -/
theorem passenger_count_invariant (e : Elevator) (b : Building) (t : ℤ) (m : MetricsTracker)
    (reason : Option String) (hinv : (e.passengers.length : ℤ) ≤ e.capacity) :
    (0 ≤ ((e.step b t m).1.passengers.length : ℤ) ∧
      ((e.step b t m).1.passengers.length : ℤ) ≤ (e.step b t m).1.capacity) ∧
      (0 ≤ ((e.trigger_fault reason).passengers.length : ℤ) ∧
        ((e.trigger_fault reason).passengers.length : ℤ) ≤ (e.trigger_fault reason).capacity) ∧
      (0 ≤ (e.start_maintenance.passengers.length : ℤ) ∧
        (e.start_maintenance.passengers.length : ℤ) ≤ e.start_maintenance.capacity) ∧
      (0 ≤ (e.restore_service.passengers.length : ℤ) ∧
        (e.restore_service.passengers.length : ℤ) ≤ e.restore_service.capacity) :=
  ⟨⟨Int.natCast_nonneg _, step_passengers e b t m hinv⟩,
    ⟨Int.natCast_nonneg _, hinv⟩, ⟨Int.natCast_nonneg _, hinv⟩, ⟨Int.natCast_nonneg _, hinv⟩⟩

/-- Rider aboard the C7 witness elevator. -/
def c7Passenger : Passenger :=
  { passenger_id := 7, origin := 1, destination := 4, arrival_time := 0, board_time := some 1 }

/-- Elevator with one rider aboard, used as the C7 witness instance. -/
def c7Elevator : Elevator :=
  { elevator_id := 0, capacity := 8, position := 2, targets := [4],
    passengers := [c7Passenger] }

/-- Two-floor building with empty queues for the C7 witness instance. -/
def c7Building : Building :=
  { num_floors := 2, floors := [{ number := 0 }, { number := 1 }], elevators := [],
    scheduler_name := "fcfs", scheduler_options := none, scheduler := .fcfs }

/-- C7 (witness): the invariant evaluated for a one-rider elevator. -/
theorem passenger_count_invariant_witness :
    (0 ≤ ((c7Elevator.step c7Building 0 ⟨[], [], 0⟩).1.passengers.length : ℤ) ∧
      ((c7Elevator.step c7Building 0 ⟨[], [], 0⟩).1.passengers.length : ℤ) ≤
        (c7Elevator.step c7Building 0 ⟨[], [], 0⟩).1.capacity) ∧
      (0 ≤ ((c7Elevator.trigger_fault none).passengers.length : ℤ) ∧
        ((c7Elevator.trigger_fault none).passengers.length : ℤ) ≤
          (c7Elevator.trigger_fault none).capacity) ∧
      (0 ≤ (c7Elevator.start_maintenance.passengers.length : ℤ) ∧
        (c7Elevator.start_maintenance.passengers.length : ℤ) ≤
          c7Elevator.start_maintenance.capacity) ∧
      (0 ≤ (c7Elevator.restore_service.passengers.length : ℤ) ∧
        (c7Elevator.restore_service.passengers.length : ℤ) ≤
          c7Elevator.restore_service.capacity) :=
  passenger_count_invariant c7Elevator c7Building 0 ⟨[], [], 0⟩ none (by norm_num [c7Elevator])

/-! ### Claim C9: scheduler keys and dispatch safety -/

theorem insertStable_subset {α : Type} (le : α → α → Bool) (a : α) (l : List α) :
    ∀ x ∈ insertStable le a l, x = a ∨ x ∈ l := by
  induction l with
  | nil =>
    intro x hx
    rw [insertStable] at hx
    exact Or.inl (List.mem_singleton.mp hx)
  | cons y ys ih =>
    intro x hx
    rw [insertStable] at hx
    split at hx
    · rcases List.mem_cons.mp hx with h | h
      · exact Or.inl h
      · exact Or.inr h
    · rcases List.mem_cons.mp hx with h | h
      · exact Or.inr (h ▸ List.mem_cons_self y ys)
      · rcases ih x h with h2 | h2
        · exact Or.inl h2
        · exact Or.inr (List.mem_cons_of_mem y h2)

theorem pySorted_subset {α : Type} (le : α → α → Bool) (l : List α) :
    ∀ x ∈ pySorted le l, x ∈ l := by
  induction l with
  | nil =>
    intro x hx
    rw [pySorted] at hx
    exact absurd hx (List.not_mem_nil x)
  | cons y ys ih =>
    intro x hx
    rw [pySorted] at hx
    rcases insertStable_subset le y (pySorted le ys) x hx with h | h
    · exact h ▸ List.mem_cons_self y ys
    · exact List.mem_cons_of_mem y (ih x h)

theorem sortedHead_mem {α : Type} (le : α → α → Bool) (l : List α) (c : α)
    (h : (pySorted le l).head? = some c) : c ∈ l :=
  pySorted_subset le l c (List.mem_of_mem_head? (Option.mem_def.mpr h))

theorem dictAppend_keys {α : Type} (m : List (ℤ × List α)) (k : ℤ) (v : α) :
    ∀ p ∈ dictAppend m k v, p.1 = k ∨ p.1 ∈ m.map Prod.fst := by
  induction m with
  | nil =>
    intro p hp
    rw [dictAppend] at hp
    exact Or.inl (by rw [List.mem_singleton.mp hp])
  | cons q m ih =>
    intro p hp
    rw [dictAppend] at hp
    split at hp
    · rcases List.mem_cons.mp hp with h | h
      · right
        rw [h]
        exact List.mem_cons_self _ _
      · right
        exact List.mem_cons_of_mem _ (List.mem_map_of_mem Prod.fst h)
    · rcases List.mem_cons.mp hp with h | h
      · right
        rw [h]
        exact List.mem_cons_self _ _
      · rcases ih p h with h2 | h2
        · exact Or.inl h2
        · exact Or.inr (List.mem_cons_of_mem _ h2)

theorem dictSetdefault_keys {α : Type} (m : List (ℤ × List α)) (k : ℤ) :
    ∀ p ∈ dictSetdefault m k, p.1 = k ∨ p.1 ∈ m.map Prod.fst := by
  intro p hp
  rw [dictSetdefault] at hp
  split at hp
  · exact Or.inr (List.mem_map_of_mem Prod.fst hp)
  · rcases List.mem_append.mp hp with h | h
    · exact Or.inr (List.mem_map_of_mem Prod.fst h)
    · exact Or.inl (by rw [List.mem_singleton.mp h])

theorem mutateFirst_map {α β : Type} (pred : α → Bool) (f : α → α) (g : α → β)
    (hg : ∀ x, g (f x) = g x) : ∀ l : List α, (mutateFirst pred f l).map g = l.map g := by
  intro l
  induction l with
  | nil => rfl
  | cons x xs ih =>
    rw [mutateFirst]
    split
    · simp [hg]
    · simp [ih]

theorem dictSet_keys {α : Type} (m : List (ℤ × List α)) (k : ℤ) (v : List α) :
    (dictSet m k v).map Prod.fst = m.map Prod.fst := by
  rw [dictSet]
  exact mutateFirst_map (fun p => p.1 == k) (fun p => (p.1, v)) Prod.fst (fun _ => rfl) m

/-- `_choose_elevator` only returns members of its candidate list. -/
theorem fcfs_choose_elevator_mem (elevators : List ElevatorSnapshot) (request : PendingRequest)
    (c : ElevatorSnapshot) (h : FCFS._choose_elevator elevators request = some c) :
    c ∈ elevators := by
  simp only [FCFS._choose_elevator] at h
  split at h
  · split at h
    · exact absurd h (by simp)
    · exact (List.mem_filter.mp (sortedHead_mem _ _ c h)).1
  · exact (List.mem_filter.mp (sortedHead_mem _ _ c h)).1

theorem update_snapshot_ids (elevators : List ElevatorSnapshot) (chosen : ElevatorSnapshot)
    (request : PendingRequest) :
    (FCFS._update_snapshot elevators chosen request).map (fun e => e.elevator_id) =
      elevators.map (fun e => e.elevator_id) := by
  rw [FCFS._update_snapshot, List.map_map]
  apply List.map_congr_left
  intro e _
  by_cases h : e.elevator_id = chosen.elevator_id <;> simp [h]

theorem fcfs_selectLoop_keys (ids : List ℤ) (reqs : List PendingRequest) :
    ∀ (elevators : List ElevatorSnapshot) (assignments : Assignments),
      elevators.map (fun e => e.elevator_id) = ids →
      (∀ k ∈ assignments.map Prod.fst, k ∈ ids) →
      ∀ k ∈ (FCFS.selectLoop reqs elevators assignments).map Prod.fst, k ∈ ids := by
  induction reqs with
  | nil =>
    intro els asg _ hasg k hk
    rw [FCFS.selectLoop] at hk
    exact hasg k hk
  | cons r rs ih =>
    intro els asg hids hasg k hk
    rw [FCFS.selectLoop] at hk
    cases hc : FCFS._choose_elevator els r with
    | none =>
      rw [hc] at hk
      exact ih els asg hids hasg k hk
    | some c =>
      rw [hc] at hk
      refine ih _ _ (by rw [update_snapshot_ids, hids]) ?_ k hk
      intro k2 hk2
      rcases List.mem_map.mp hk2 with ⟨p, hp, hpk⟩
      rcases dictAppend_keys asg c.elevator_id r.origin p hp with h | h
      · rw [← hpk, h, ← hids]
        exact List.mem_map_of_mem _ (fcfs_choose_elevator_mem els r c hc)
      · exact hasg k2 (hpk ▸ h)

theorem fcfs_keys (els : List ElevatorSnapshot) (reqs : List PendingRequest) :
    ∀ k ∈ (FCFS.select_calls els reqs).map Prod.fst,
      k ∈ els.map (fun e => e.elevator_id) := by
  rw [FCFS.select_calls]
  exact fcfs_selectLoop_keys _ _ els [] rfl (by simp)

theorem scan_closest_elevator_mem (elevators : List ElevatorSnapshot) (request : PendingRequest)
    (c : ElevatorSnapshot) (h : Scan._closest_elevator elevators request = some c) :
    c ∈ elevators := by
  simp only [Scan._closest_elevator] at h
  split at h
  · exact absurd h (by simp)
  · exact (List.mem_filter.mp (sortedHead_mem _ _ c h)).1

theorem scan_assignLoop_keys (elevator : ElevatorSnapshot) (ids : List ℤ)
    (hid : elevator.elevator_id ∈ ids) (path : List PendingRequest) :
    ∀ (asg : Assignments) (reqs : List PendingRequest),
      (∀ k ∈ asg.map Prod.fst, k ∈ ids) →
      ∀ k ∈ (Scan.assignLoop elevator path asg reqs).1.map Prod.fst, k ∈ ids := by
  induction path with
  | nil =>
    intro asg reqs hasg k hk
    rw [Scan.assignLoop] at hk
    exact hasg k hk
  | cons r rs ih =>
    intro asg reqs hasg k hk
    rw [Scan.assignLoop] at hk
    split at hk
    · exact hasg k hk
    · refine ih _ _ ?_ k hk
      intro k2 hk2
      rcases List.mem_map.mp hk2 with ⟨p, hp, hpk⟩
      rcases dictAppend_keys asg elevator.elevator_id r.origin p hp with h | h
      · exact hpk ▸ h ▸ hid
      · exact hasg k2 (hpk ▸ h)

theorem scan_sweep_keys (ids : List ℤ) :
    ∀ (els : List ElevatorSnapshot) (asg : Assignments) (reqs : List PendingRequest),
      (∀ e ∈ els, e.elevator_id ∈ ids) →
      (∀ k ∈ asg.map Prod.fst, k ∈ ids) →
      ∀ k ∈ (Scan.sweep els asg reqs).1.map Prod.fst, k ∈ ids := by
  intro els
  induction els with
  | nil =>
    intro asg reqs _ hasg k hk
    rw [Scan.sweep] at hk
    exact hasg k hk
  | cons e es ih =>
    intro asg reqs hels hasg k hk
    rw [Scan.sweep] at hk
    refine ih _ _ (fun e2 he2 => hels e2 (List.mem_cons_of_mem e he2)) ?_ k hk
    exact scan_assignLoop_keys e ids (hels e (List.mem_cons_self e es)) _ asg reqs hasg

theorem scan_fallback_keys (els : List ElevatorSnapshot) (ids : List ℤ)
    (hels : ∀ e ∈ els, e.elevator_id ∈ ids) (reqs : List PendingRequest) :
    ∀ (asg : Assignments),
      (∀ k ∈ asg.map Prod.fst, k ∈ ids) →
      ∀ k ∈ (Scan.fallback els reqs asg).map Prod.fst, k ∈ ids := by
  induction reqs with
  | nil =>
    intro asg hasg k hk
    rw [Scan.fallback] at hk
    exact hasg k hk
  | cons r rs ih =>
    intro asg hasg k hk
    rw [Scan.fallback] at hk
    cases hc : Scan._closest_elevator els r with
    | none =>
      rw [hc] at hk
      exact ih asg hasg k hk
    | some c =>
      rw [hc] at hk
      refine ih _ ?_ k hk
      intro k2 hk2
      rcases List.mem_map.mp hk2 with ⟨p, hp, hpk⟩
      rcases dictAppend_keys asg c.elevator_id r.origin p hp with h | h
      · exact hpk ▸ h ▸ hels c (scan_closest_elevator_mem els r c hc)
      · exact hasg k2 (hpk ▸ h)

theorem scan_keys (els : List ElevatorSnapshot) (reqs : List PendingRequest) :
    ∀ k ∈ (Scan.select_calls els reqs).map Prod.fst,
      k ∈ els.map (fun e => e.elevator_id) := by
  rw [Scan.select_calls]
  refine scan_fallback_keys els _ (fun e he => List.mem_map_of_mem _ he) _ _ ?_
  exact scan_sweep_keys _ els [] reqs (fun e he => List.mem_map_of_mem _ he) (by simp)

theorem dd_best_elevator_mem (elevators : List ElevatorSnapshot)
    (requests : List PendingRequest) (c : ElevatorSnapshot)
    (h : DD._best_elevator elevators requests = some c) : c ∈ elevators := by
  simp only [DD._best_elevator] at h
  split at h
  · exact absurd h (by simp)
  · split at h
    · split at h
      · exact absurd h (by simp)
      · exact (List.mem_filter.mp (sortedHead_mem _ _ c h)).1
    · exact (List.mem_filter.mp (sortedHead_mem _ _ c h)).1

theorem dd_selectLoop_keys (cluster_size : ℤ) (els : List ElevatorSnapshot) (ids : List ℤ)
    (hels : ∀ e ∈ els, e.elevator_id ∈ ids) (clusters : List (ℤ × List PendingRequest)) :
    ∀ (asg : Assignments),
      (∀ k ∈ asg.map Prod.fst, k ∈ ids) →
      ∀ k ∈ (DD.selectLoop cluster_size els clusters asg).map Prod.fst, k ∈ ids := by
  induction clusters with
  | nil =>
    intro asg hasg k hk
    rw [DD.selectLoop] at hk
    exact hasg k hk
  | cons cl cls ih =>
    intro asg hasg k hk
    rw [DD.selectLoop] at hk
    cases hc : DD._best_elevator els cl.2 with
    | none =>
      rw [hc] at hk
      exact ih asg hasg k hk
    | some chosen =>
      rw [hc] at hk
      refine ih _ ?_ k hk
      intro k2 hk2
      rw [dictSet_keys] at hk2
      rcases List.mem_map.mp hk2 with ⟨p, hp, hpk⟩
      rcases dictSetdefault_keys asg chosen.elevator_id p hp with h | h
      · exact hpk ▸ h ▸ hels chosen (dd_best_elevator_mem els cl.2 chosen hc)
      · exact hasg k2 (hpk ▸ h)

theorem dd_keys (cluster_size : ℤ) (els : List ElevatorSnapshot) (reqs : List PendingRequest) :
    ∀ k ∈ (DD.select_calls cluster_size els reqs).map Prod.fst,
      k ∈ els.map (fun e => e.elevator_id) := by
  rw [DD.select_calls]
  exact dd_selectLoop_keys cluster_size els _ (fun e he => List.mem_map_of_mem _ he) _ []
    (by simp)

theorem mutateFirst_get_of_not_pred {α : Type} (pred : α → Bool) (f : α → α) :
    ∀ (l : List α) (i : ℕ) (e : α),
      l.get? i = some e → pred e = false → (mutateFirst pred f l).get? i = some e := by
  intro l
  induction l with
  | nil => intro i e hi _; simp at hi
  | cons x xs ih =>
    intro i e hi hpred
    rw [mutateFirst]
    cases i with
    | zero =>
      simp only [List.get?] at hi
      injection hi with hi
      subst hi
      rw [if_neg (by rw [hpred]; exact Bool.false_ne_true)]
      rfl
    | succ j =>
      simp only [List.get?] at hi
      split
      · exact hi
      · exact ih j e hi hpred

theorem applyTarget_get (b : Building) (k targ : ℤ) (i : ℕ) (e : Elevator)
    (hi : b.elevators.get? i = some e) (hne : e.elevator_id ≠ k) :
    (b.applyTarget k targ).elevators.get? i = some e := by
  rw [Building.applyTarget]
  exact mutateFirst_get_of_not_pred _ _ b.elevators i e hi (by simpa using hne)

theorem assign_target_id (e : Elevator) (t : ℤ) :
    (e.assign_target t).elevator_id = e.elevator_id := by
  rw [Elevator.assign_target]
  split <;> rfl

theorem applyTarget_elevator_count (b : Building) (k targ : ℤ) :
    (b.applyTarget k targ).elevators.length = b.elevators.length := by
  rw [Building.applyTarget]
  have h := congrArg List.length
    (mutateFirst_map (fun e => e.elevator_id == k) (fun e => e.assign_target targ)
      (fun e => e.elevator_id) (fun e => assign_target_id e targ) b.elevators)
  simpa using h

theorem targets_fold_get (k : ℤ) (i : ℕ) (e : Elevator) (hne : e.elevator_id ≠ k) :
    ∀ (targets : List ℤ) (b : Building), b.elevators.get? i = some e →
      (targets.foldl (fun b target => b.applyTarget k target) b).elevators.get? i = some e := by
  intro targets
  induction targets with
  | nil => intro b hb; exact hb
  | cons targ rest ih =>
    intro b hb
    exact ih _ (applyTarget_get b k targ i e hb hne)

theorem dispatch_fold_get (i : ℕ) (e : Elevator) :
    ∀ (pairs : Assignments) (b : Building),
      b.elevators.get? i = some e →
      (∀ pair ∈ pairs, e.elevator_id ≠ pair.1) →
      (pairs.foldl Building.applyAssignment b).elevators.get? i = some e := by
  intro pairs
  induction pairs with
  | nil => intro b hb _; exact hb
  | cons pair rest ih =>
    intro b hb hne
    refine ih _ ?_ (fun p hp => hne p (List.mem_cons_of_mem pair hp))
    rw [Building.applyAssignment]
    split
    · exact hb
    · exact targets_fold_get pair.1 i e (hne pair (List.mem_cons_self pair rest)) pair.2 b hb

/-- C9: every key of the mapping returned by each of the three
schedulers' `select_calls` is the elevator_id of an input snapshot;
`Building._snapshot_elevators` snapshots exactly the in-service
elevators; and consequently, on a building with pairwise-distinct
elevator ids, `Building.dispatch` leaves every out-of-service elevator
untouched (in particular it never appends a target to a faulted or
maintenance elevator). -/
theorem scheduler_keys_dispatch_safe :
    (∀ (impl : SchedulerImpl) (els : List ElevatorSnapshot) (reqs : List PendingRequest),
      ∀ k ∈ (impl.select_calls els reqs).map Prod.fst, k ∈ els.map (fun e => e.elevator_id)) ∧
      (∀ (b : Building) (s : ElevatorSnapshot), s ∈ b._snapshot_elevators →
        ∃ e ∈ b.elevators, e.in_service = true ∧ s = Building.snapshotOf e) ∧
      (∀ (b : Building) (t : ℤ),
        (b.elevators.map (fun e => e.elevator_id)).Nodup →
        ∀ (i : ℕ) (e : Elevator), b.elevators.get? i = some e → e.in_service = false →
          (b.dispatch t).elevators.get? i = some e) := by
  refine ⟨?_, ?_, ?_⟩
  · intro impl els reqs k hk
    cases impl with
    | fcfs => exact fcfs_keys els reqs k hk
    | scan => exact scan_keys els reqs k hk
    | destination_dispatch c => exact dd_keys c els reqs k hk
  · intro b s hs
    rw [Building._snapshot_elevators] at hs
    rcases List.mem_map.mp hs with ⟨e, he, hse⟩
    rcases List.mem_filter.mp he with ⟨hmem, hsvc⟩
    exact ⟨e, hmem, hsvc, hse.symm⟩
  · intro b t hnodup i e hi hsvc
    rw [Building.dispatch]
    refine dispatch_fold_get i e _ b hi ?_
    intro pair hp heq
    have hkey : pair.1 ∈
        (b.scheduler.select_calls b._snapshot_elevators
          (b._collect_pending_requests t)).map Prod.fst :=
      List.mem_map_of_mem Prod.fst hp
    have hsnap : pair.1 ∈ b._snapshot_elevators.map (fun s => s.elevator_id) := by
      cases himpl : b.scheduler with
      | fcfs => exact fcfs_keys _ _ pair.1 (by rw [himpl] at hkey; exact hkey)
      | scan => exact scan_keys _ _ pair.1 (by rw [himpl] at hkey; exact hkey)
      | destination_dispatch c => exact dd_keys c _ _ pair.1 (by rw [himpl] at hkey; exact hkey)
    rcases List.mem_map.mp hsnap with ⟨s, hs, hsid⟩
    rw [Building._snapshot_elevators] at hs
    rcases List.mem_map.mp hs with ⟨e2, he2, hse2⟩
    rcases List.mem_filter.mp he2 with ⟨hmem2, hsvc2⟩
    -- e (out of service, at index i) and e2 (in service) share the id pair.1
    have hid2 : e2.elevator_id = pair.1 := by rw [← hsid, ← hse2]; rfl
    rcases List.get?_eq_some.mp hi with ⟨hilt, hig⟩
    rcases List.mem_iff_get.mp hmem2 with ⟨j, hj⟩
    have hinj := List.nodup_iff_injective_get.mp hnodup
    have hij : (⟨i, by simp [hilt]⟩ : Fin (b.elevators.map (fun e => e.elevator_id)).length)
        = ⟨j.1, by simp [j.2]⟩ := by
      apply hinj
      simp only [List.get_map]
      rw [show b.elevators.get ⟨i, hilt⟩ = e from hig, hj]
      rw [heq, hid2]
    have hval : i = j.1 := congrArg Fin.val hij
    have : e = e2 := by
      rw [← hig, ← hj]
      congr 1
      exact Fin.ext hval
    rw [this, hsvc2] at hsvc
    exact absurd hsvc (by simp)

/-- Faulted elevator (id 0) for the C9 witness building. -/
def c9Faulted : Elevator := { elevator_id := 0, capacity := 8, status := .faulted }

/-- In-service elevator (id 1) for the C9 witness building. -/
def c9Good : Elevator := { elevator_id := 1, capacity := 8, position := 3 }

/-- Rider waiting at floor 2 of the C9 witness building. -/
def c9Waiting : Passenger :=
  { passenger_id := 0, origin := 2, destination := 0, arrival_time := 0 }

/-- Four-floor FCFS building with one faulted and one in-service
elevator and a waiting passenger at floor 2. -/
def c9Building : Building :=
  { num_floors := 4,
    floors := [{ number := 0 }, { number := 1 },
      { number := 2, down_queue := [c9Waiting] }, { number := 3 }],
    elevators := [c9Faulted, c9Good],
    scheduler_name := "fcfs", scheduler_options := none, scheduler := .fcfs }

/-- C9 (witness): on the witness building, the key produced by the FCFS
scheduler is the in-service elevator's id, and dispatch leaves the
faulted elevator at index 0 untouched. -/
theorem scheduler_keys_dispatch_safe_witness :
    (1 : ℤ) ∈ (c9Building._snapshot_elevators).map (fun e => e.elevator_id) ∧
      (c9Building.dispatch 0).elevators.get? 0 = some c9Faulted := by
  constructor
  · refine scheduler_keys_dispatch_safe.1 SchedulerImpl.fcfs c9Building._snapshot_elevators
      (c9Building._collect_pending_requests 0) 1 ?_
    norm_num [SchedulerImpl.select_calls, FCFS.select_calls, FCFS.selectLoop,
      FCFS._choose_elevator, FCFS._update_snapshot, FCFS.chooseKey, FCFS.chooseKeyLE,
      pySorted, insertStable, estimate_travel_time, EstTime.lt, EstTime.equiv, EstTime.le,
      ElevatorSnapshot.available_capacity, dictAppend, List.filter,
      Building._snapshot_elevators, Building._collect_pending_requests, Building.floorRequests,
      Building.snapshotOf, Elevator.in_service, Elevator.direction,
      c9Building, c9Faulted, c9Good, c9Waiting]
  · exact scheduler_keys_dispatch_safe.2.2 c9Building 0
      (by simp [c9Building, c9Faulted, c9Good]) 0 c9Faulted rfl rfl

/-! ### Claim C4: the SCAN scheduler against its specification -/

/-- The float comparison on estimates is total: squaring-based decisions
for `x ≤ y` and `y ≤ x` cannot both fail. -/
theorem estLE_total (x y : EstTime) : x.le y = true ∨ y.le x = true := by
  cases x with
  | inf =>
    cases y with
    | inf => exact Or.inl rfl
    | val a b c => exact Or.inr rfl
  | val a1 b1 c1 =>
    cases y with
    | inf => exact Or.inl rfl
    | val a2 b2 c2 =>
      simp only [EstTime.le]
      have hsq : (a1 - a2) ^ 2 = (a2 - a1) ^ 2 := by ring
      rcases lt_trichotomy (a2 - a1) 0 with hq | hq | hq
      · -- Q < 0: x.le y takes the D-branch, y.le x the C-branch with Q' = -Q > 0
        rw [if_neg (not_le.mpr hq), if_pos (by linarith : (0:ℚ) ≤ a1 - a2), hsq]
        by_cases hD : b2 ^ 2 * c2 - b1 ^ 2 * c1 - (a2 - a1) ^ 2 ≤ 0
        · exact Or.inr (by rw [if_pos hD])
        · rw [if_neg hD, if_neg (by linarith : ¬ b2 ^ 2 * c2 - b1 ^ 2 * c1 - (a2 - a1) ^ 2 < 0)]
          rcases le_total (4 * (a2 - a1) ^ 2 * (b1 ^ 2 * c1))
              ((b2 ^ 2 * c2 - b1 ^ 2 * c1 - (a2 - a1) ^ 2) ^ 2) with h | h
          · exact Or.inl (decide_eq_true h)
          · exact Or.inr (decide_eq_true h)
      · -- Q = 0
        rw [if_pos (by linarith : (0:ℚ) ≤ a2 - a1), if_pos (by linarith : (0:ℚ) ≤ a1 - a2)]
        by_cases hC : b1 ^ 2 * c1 - b2 ^ 2 * c2 - (a2 - a1) ^ 2 ≤ 0
        · exact Or.inl (by rw [if_pos hC])
        · have hcond : b2 ^ 2 * c2 - b1 ^ 2 * c1 - (a1 - a2) ^ 2 ≤ 0 := by
            nlinarith [sq_nonneg (a1 - a2), sq_nonneg (a2 - a1)]
          exact Or.inr (by rw [if_pos hcond])
      · -- Q > 0
        rw [if_pos (le_of_lt hq), if_neg (by linarith : ¬ (0:ℚ) ≤ a1 - a2), hsq]
        by_cases hC : b1 ^ 2 * c1 - b2 ^ 2 * c2 - (a2 - a1) ^ 2 ≤ 0
        · exact Or.inl (by rw [if_pos hC])
        · rw [if_neg hC, if_neg (by linarith : ¬ b1 ^ 2 * c1 - b2 ^ 2 * c2 - (a2 - a1) ^ 2 < 0)]
          rcases le_total ((b1 ^ 2 * c1 - b2 ^ 2 * c2 - (a2 - a1) ^ 2) ^ 2)
              (4 * (a2 - a1) ^ 2 * (b2 ^ 2 * c2)) with h | h
          · exact Or.inl (decide_eq_true h)
          · exact Or.inr (decide_eq_true h)

/-- The lexicographic fallback comparator of SCAN is total. -/
theorem closestKeyLE_total (k1 k2 : EstTime × ℤ) :
    Scan.closestKeyLE k1 k2 = true ∨ Scan.closestKeyLE k2 k1 = true := by
  cases h12 : k1.1.le k2.1 <;> cases h21 : k2.1.le k1.1
  · rcases estLE_total k1.1 k2.1 with h | h
    · rw [h12] at h
      exact absurd h (by simp)
    · rw [h21] at h
      exact absurd h (by simp)
  · exact Or.inr (by simp [Scan.closestKeyLE, EstTime.lt, h12, h21])
  · exact Or.inl (by simp [Scan.closestKeyLE, EstTime.lt, h12, h21])
  · rcases le_total k1.2 k2.2 with h | h
    · exact Or.inl (by simp [Scan.closestKeyLE, EstTime.lt, EstTime.equiv, h12, h21, h])
    · exact Or.inr (by simp [Scan.closestKeyLE, EstTime.lt, EstTime.equiv, h12, h21, h])

/-- Modelled from the spec: the first minimizer of a strict comparator —
fold from the right, keeping the earlier element on ties. -/
def firstMinBy {α : Type} (lt : α → α → Bool) : List α → Option α
  | [] => none
  | x :: xs =>
    match firstMinBy lt xs with
    | none => some x
    | some m => some (if lt m x then m else x)

/-- For a total comparator, the head of the stable ascending sort is the
first minimizer. -/
theorem pySorted_head_firstMin {α : Type} (le : α → α → Bool)
    (htot : ∀ a b, le a b = true ∨ le b a = true) (l : List α) :
    (pySorted le l).head? = firstMinBy (fun a b => le a b && !(le b a)) l := by
  induction l with
  | nil => rfl
  | cons x xs ih =>
    rw [pySorted, firstMinBy, ← ih]
    cases hs : pySorted le xs with
    | nil => rw [insertStable]; rfl
    | cons y ys =>
      rw [insertStable]
      by_cases hxy : le x y = true
      · rw [if_pos hxy]
        have : (fun a b => le a b && !(le b a)) y x = false := by
          simp [hxy]
        simp [this]
      · rw [if_neg hxy]
        have hyx : le y x = true := (htot x y).resolve_left hxy
        have : (fun a b => le a b && !(le b a)) y x = true := by
          simp only [hyx, Bool.true_and, Bool.not_eq_true]
          simpa using hxy
        simp [this]

/-- Modelled from the spec: a request is in path when the elevator has
direction 0, or the origin lies on or ahead of the elevator's position
in its travel direction. -/
def specInPath (elevator : ElevatorSnapshot) (request : PendingRequest) : Bool :=
  decide (elevator.direction = 0) ||
    (decide (0 < elevator.direction) && decide (elevator.position ≤ (request.origin : ℚ))) ||
    (decide (elevator.direction < 0) && decide ((request.origin : ℚ) ≤ elevator.position))

/-- Modelled from the spec: in-path requests sorted by origin, ascending
when the elevator's direction is ≥ 0 and descending otherwise. -/
def specOrdered (elevator : ElevatorSnapshot) (in_path : List PendingRequest) :
    List PendingRequest :=
  if 0 ≤ elevator.direction then pySorted (fun a b => decide (a.origin ≤ b.origin)) in_path
  else pySorted (fun a b => decide (b.origin ≤ a.origin)) in_path

/-- Modelled from the spec: one elevator's sweep step — when the static
snapshot still shows available capacity, every in-path request is
assigned (in sweep order) and removed from consideration; with no
available capacity none are. -/
def specSweepStep (elevator : ElevatorSnapshot) (assignments : Assignments)
    (requests : List PendingRequest) : Assignments × List PendingRequest :=
  if elevator.available_capacity ≤ 0 then (assignments, requests)
  else
    (specOrdered elevator (requests.filter (specInPath elevator))).foldl
      (fun step request =>
        (dictAppend step.1 elevator.elevator_id request.origin, removeFirst step.2 request))
      (assignments, requests)

/-- Modelled from the spec: the per-elevator sweep in building order. -/
def specSweep : List ElevatorSnapshot → Assignments → List PendingRequest →
    Assignments × List PendingRequest
  | [], assignments, requests => (assignments, requests)
  | elevator :: more, assignments, requests =>
    let step := specSweepStep elevator assignments requests
    specSweep more step.1 step.2

/-- Modelled from the spec: the elevator with available capacity
minimizing (estimated travel time to the origin + door dwell, direction
mismatch); ties go to the earlier elevator. -/
def specClosest (elevators : List ElevatorSnapshot) (request : PendingRequest) :
    Option ElevatorSnapshot :=
  firstMinBy
    (fun a b =>
      Scan.closestKeyLE (Scan.closestKey a request) (Scan.closestKey b request) &&
        !(Scan.closestKeyLE (Scan.closestKey b request) (Scan.closestKey a request)))
    (elevators.filter (fun e => decide (0 < e.available_capacity)))

/-- Modelled from the spec: remaining requests each go to the closest
feasible elevator, or stay unassigned when there is none. -/
def specFallback (elevators : List ElevatorSnapshot) :
    List PendingRequest → Assignments → Assignments
  | [], assignments => assignments
  | request :: rest, assignments =>
    match specClosest elevators request with
    | none => specFallback elevators rest assignments
    | some c => specFallback elevators rest (dictAppend assignments c.elevator_id request.origin)

/-- Modelled from the spec: the SCAN scheduler as described by the
specification text. -/
def spec_scan_select_calls (elevator_state : List ElevatorSnapshot)
    (pending_requests : List PendingRequest) : Assignments :=
  let step := specSweep elevator_state [] pending_requests
  specFallback elevator_state step.2 step.1

theorem insertStable_congr {α : Type} (le1 le2 : α → α → Bool)
    (h : ∀ a b, le1 a b = le2 a b) (x : α) :
    ∀ l, insertStable le1 x l = insertStable le2 x l := by
  intro l
  induction l with
  | nil => rfl
  | cons y ys ih =>
    rw [insertStable, insertStable, h, ih]

theorem pySorted_congr {α : Type} (le1 le2 : α → α → Bool)
    (h : ∀ a b, le1 a b = le2 a b) :
    ∀ l, pySorted le1 l = pySorted le2 l := by
  intro l
  induction l with
  | nil => rfl
  | cons x xs ih =>
    rw [pySorted, pySorted, ih, insertStable_congr le1 le2 h]

theorem is_in_path_eq_spec (elevator : ElevatorSnapshot) (request : PendingRequest) :
    Scan._is_in_path elevator request = specInPath elevator request := by
  rw [Scan._is_in_path, specInPath]
  by_cases h : elevator.direction = 0
  · simp [h]
  · simp only [if_neg h, decide_eq_false h, Bool.false_or, Bool.decide_and]

theorem sort_eq_specOrdered (elevator : ElevatorSnapshot) (l : List PendingRequest) :
    sort_requests_in_direction l (if elevator.direction = 0 then 1 else elevator.direction) =
      specOrdered elevator l := by
  rw [sort_requests_in_direction, specOrdered]
  by_cases h : elevator.direction = 0
  · rw [if_pos h, if_pos (by norm_num), if_pos (by rw [h])]
  · rw [if_neg h]
    by_cases h2 : 0 ≤ elevator.direction
    · rw [if_pos h2, if_pos h2]
    · rw [if_neg h2, if_neg h2]
      exact pySorted_congr _ _ (fun a b => by rw [decide_eq_decide]; exact neg_le_neg_iff) l

theorem assignLoop_nonpos (elevator : ElevatorSnapshot)
    (hcap : elevator.available_capacity ≤ 0) (path : List PendingRequest)
    (asg : Assignments) (reqs : List PendingRequest) :
    Scan.assignLoop elevator path asg reqs = (asg, reqs) := by
  cases path with
  | nil => rfl
  | cons r rs => rw [Scan.assignLoop, if_pos hcap]

theorem assignLoop_pos (elevator : ElevatorSnapshot)
    (hcap : ¬ elevator.available_capacity ≤ 0) (path : List PendingRequest) :
    ∀ (asg : Assignments) (reqs : List PendingRequest),
      Scan.assignLoop elevator path asg reqs =
        path.foldl
          (fun step request =>
            (dictAppend step.1 elevator.elevator_id request.origin,
              removeFirst step.2 request))
          (asg, reqs) := by
  induction path with
  | nil => intro asg reqs; rfl
  | cons r rs ih =>
    intro asg reqs
    rw [Scan.assignLoop, if_neg hcap, ih, List.foldl_cons]

theorem sweep_eq_specSweep :
    ∀ (els : List ElevatorSnapshot) (asg : Assignments) (reqs : List PendingRequest),
      Scan.sweep els asg reqs = specSweep els asg reqs := by
  intro els
  induction els with
  | nil => intro asg reqs; rfl
  | cons e es ih =>
    intro asg reqs
    rw [Scan.sweep, specSweep]
    have hstep :
        Scan.assignLoop e
          (sort_requests_in_direction (reqs.filter (fun req => Scan._is_in_path e req))
            (if e.direction = 0 then 1 else e.direction)) asg reqs =
          specSweepStep e asg reqs := by
      rw [List.filter_congr (fun r _ => is_in_path_eq_spec e r), sort_eq_specOrdered,
        specSweepStep]
      by_cases hcap : e.available_capacity ≤ 0
      · rw [if_pos hcap, assignLoop_nonpos e hcap]
      · rw [if_neg hcap, assignLoop_pos e hcap]
    rw [hstep, ih]

theorem closest_eq_specClosest (els : List ElevatorSnapshot) (request : PendingRequest) :
    Scan._closest_elevator els request = specClosest els request := by
  simp only [Scan._closest_elevator, specClosest]
  split
  · rename_i h
    rw [List.isEmpty_iff.mp h]
    rfl
  · exact pySorted_head_firstMin _ (fun a b => closestKeyLE_total _ _) _

theorem fallback_eq_specFallback (els : List ElevatorSnapshot) :
    ∀ (reqs : List PendingRequest) (asg : Assignments),
      Scan.fallback els reqs asg = specFallback els reqs asg := by
  intro reqs
  induction reqs with
  | nil => intro asg; rfl
  | cons r rs ih =>
    intro asg
    rw [Scan.fallback, specFallback, closest_eq_specClosest]
    cases specClosest els r with
    | none => exact ih asg
    | some c => exact ih _

/-- C4: `ScanScheduler.select_calls` coincides with the specification's
description on every input — per elevator in input order, all in-path
requests (origin-sorted ascending for direction ≥ 0, descending
otherwise) are assigned and removed whenever the static snapshot shows
available capacity (none when it shows ≤ 0, with no per-request
decrement), and every remaining request then goes to the
available-capacity elevator minimizing (estimated travel time + door
dwell, direction mismatch), or stays unassigned if there is none. -/
theorem scan_select_calls_spec (elevator_state : List ElevatorSnapshot)
    (pending_requests : List PendingRequest) :
    Scan.select_calls elevator_state pending_requests =
      spec_scan_select_calls elevator_state pending_requests := by
  rw [Scan.select_calls, spec_scan_select_calls, sweep_eq_specSweep,
    fallback_eq_specFallback]

end LiftLogic
